import Mathlib

/-!
Verification of the OMEMO end-to-end encryption subsystem of the
xmpp-channel repository, as a shallow embedding in Lean 4.

The embedding translates the TypeScript sources:
  - `src/omemo/store.ts` (OmemoStore: identity trust, pre-key pool, sessions),
  - `src/omemo/device-cache.ts` (device-list cache, PEP push handling),
  - `src/omemo/device.ts` and `src/omemo/bundle.ts` (wire parsing),
  - `src/omemo/index.ts` (encryptOmemoMessage, encryptMucOmemoMessage,
    decryptOmemoMessage, decryptMessageKey, buildOmemoMessageStanza),
  - `src/inbound.ts` (deliverReply) and `src/outbound.ts` (sendXmppMedia).

Effectful calls (network fetches, the Signal session cipher, WebCrypto
AES-GCM, random values) are represented by explicit environment records
holding the results such calls would return; the surrounding control flow
is translated statement by statement from the source.  JavaScript numbers
that hold device ids are modelled as `Int` (parseInt can produce negative
values), byte buffers as `List Nat`, thrown exceptions as `Except` or
`Option` results, and JavaScript truthiness of strings (empty string is
falsy) by dedicated helpers.
-/

-- =============================================================================
-- Generic association-map helpers (JS `Map.set` / `Map.get` / `Map.delete`)
-- =============================================================================

/-- JS `Map.set`: overwrite in place when the key exists, append otherwise. -/
def alSet {κ α : Type} [BEq κ] (m : List (κ × α)) (k : κ) (v : α) : List (κ × α) :=
  if m.any (fun p => p.1 == k) then
    m.map (fun p => if p.1 == k then (k, v) else p)
  else
    m ++ [(k, v)]

/-- JS `Map.get`: first entry for the key, if any. -/
def alGet {κ α : Type} [BEq κ] (m : List (κ × α)) (k : κ) : Option α :=
  (m.find? (fun p => p.1 == k)).map (·.2)

/-- JS `Map.delete`: drop all entries for the key. -/
def alDelete {κ α : Type} [BEq κ] (m : List (κ × α)) (k : κ) : List (κ × α) :=
  m.filter (fun p => p.1 != k)

/-- The keys of an association map, in order. -/
def alKeys {κ α : Type} (m : List (κ × α)) : List κ := m.map (·.1)

-- =============================================================================
-- JavaScript string helpers
-- =============================================================================

/-- JS `s.split("/")[0]`: the prefix of `s` before the first `/`
    (the whole string when there is no `/`).  This is `bareJid` in
    `config-schema.ts` and the normalisation in `device-cache.ts`. -/
def jsSplitFirst (s : String) : String :=
  String.mk (s.toList.takeWhile (fun c => c != '/'))

/-- JS `s.substring(slashIdx + 1)` where `slashIdx` is the first `/`:
    everything after the first `/`. -/
def afterFirstSlash (s : String) : String :=
  String.mk ((s.toList.dropWhile (fun c => c != '/')).drop 1)

/-- JS `s.trim()`: strip leading and trailing whitespace. -/
def jsTrim (s : String) : String :=
  let ws : Char → Bool := fun c => c == ' ' || c == '\t' || c == '\n' || c == '\r'
  String.mk (((s.toList.dropWhile ws).reverse.dropWhile ws).reverse)

/-- JS truthiness for an optional string: `undefined`, `null` and the empty
    string are falsy.  Returns the string exactly when it is truthy. -/
def jsTruthyText (s? : Option String) : Option String :=
  match s? with
  | none => none
  | some s => if s = "" then none else some s

/-- JS `a || b` for optional strings: `a` when truthy, else `b`. -/
def jsOrText (a b : Option String) : Option String :=
  match jsTruthyText a with
  | some s => some s
  | none => b

/-- Maximal run of leading decimal digits, as a number; `none` if there is
    no leading digit. -/
def leadingNat (cs : List Char) : Option Nat :=
  let ds := cs.takeWhile (fun c => c.isDigit)
  if ds.isEmpty then none
  else some (ds.foldl (fun a c => a * 10 + (c.toNat - '0'.toNat)) 0)

/-- JS `parseInt(s, 10)`: skip leading whitespace, optional sign, then the
    maximal run of decimal digits; NaN (here `none`) when no digit follows. -/
def jsParseIntStr (s : String) : Option Int :=
  let cs := s.toList.dropWhile (fun c => c == ' ' || c == '\t' || c == '\n' || c == '\r')
  match cs with
  | '-' :: rest => (leadingNat rest).map (fun n => -(n : Int))
  | '+' :: rest => (leadingNat rest).map (fun n => (n : Int))
  | _ => (leadingNat cs).map (fun n => (n : Int))

/-- JS `parseInt(x, 10)` on a possibly-missing attribute:
    `parseInt(undefined, 10)` is NaN. -/
def jsParseInt (s? : Option String) : Option Int :=
  match s? with
  | none => none
  | some s => jsParseIntStr s

-- =============================================================================
-- Base64 (Node `Buffer.from(s, "base64")` / `buf.toString("base64")`)
-- =============================================================================

/-- Value of a base64 alphabet character; `none` for `=`, whitespace and
    any other character (Node ignores them). -/
def b64CharVal (c : Char) : Option Nat :=
  if 'A' ≤ c && c ≤ 'Z' then some (c.toNat - 'A'.toNat)
  else if 'a' ≤ c && c ≤ 'z' then some (c.toNat - 'a'.toNat + 26)
  else if '0' ≤ c && c ≤ '9' then some (c.toNat - '0'.toNat + 52)
  else if c = '+' then some 62
  else if c = '/' then some 63
  else none

/-- Decode a stream of 6-bit values into bytes (4 values → 3 bytes,
    trailing 3 values → 2 bytes, trailing 2 values → 1 byte). -/
def b64DecodeVals : List Nat → List Nat
  | a :: b :: c :: d :: rest =>
      (a * 4 + b / 16) :: ((b % 16) * 16 + c / 4) :: ((c % 4) * 64 + d) :: b64DecodeVals rest
  | [a, b, c] => [a * 4 + b / 16, (b % 16) * 16 + c / 4]
  | [a, b] => [a * 4 + b / 16]
  | _ => []

/-- Node `Buffer.from(s, "base64")` as a byte list: non-alphabet characters
    (including `=` padding) are skipped, then groups are decoded.  In
    particular a string such as "=" decodes to zero bytes. -/
def b64Decode (s : String) : List Nat :=
  b64DecodeVals (s.toList.filterMap b64CharVal)

/-- Base64 alphabet character for a 6-bit value. -/
def b64EncChar (n : Nat) : Char :=
  if n < 26 then Char.ofNat ('A'.toNat + n)
  else if n < 52 then Char.ofNat ('a'.toNat + (n - 26))
  else if n < 62 then Char.ofNat ('0'.toNat + (n - 52))
  else if n = 62 then '+'
  else '/'

/-- Encode bytes as base64 characters with `=` padding. -/
def b64EncodeBytes : List Nat → List Char
  | x :: y :: z :: rest =>
      b64EncChar (x / 4) :: b64EncChar ((x % 4) * 16 + y / 16) ::
      b64EncChar ((y % 16) * 4 + z / 64) :: b64EncChar (z % 64) :: b64EncodeBytes rest
  | [x, y] =>
      [b64EncChar (x / 4), b64EncChar ((x % 4) * 16 + y / 16),
       b64EncChar ((y % 16) * 4), '=']
  | [x] =>
      [b64EncChar (x / 4), b64EncChar ((x % 4) * 16), '=', '=']
  | [] => []

/-- Node `Buffer.from(bytes).toString("base64")`. -/
def b64Encode (bs : List Nat) : String :=
  String.mk (b64EncodeBytes bs)

-- =============================================================================
-- XML element model (xmpp.js / ltx `Element`)
-- =============================================================================

/-- An XML node: an element with a name, attributes, and children, or a
    text node (xmpp.js represents text children as plain strings). -/
inductive XNode where
  | elem (name : String) (attrs : List (String × String)) (children : List XNode)
  | text (s : String)

/-- The element name; text nodes have no name. -/
def XNode.nodeName : XNode → String
  | .elem n _ _ => n
  | .text _ => ""

/-- The attribute list; text nodes have none. -/
def XNode.nodeAttrs : XNode → List (String × String)
  | .elem _ a _ => a
  | .text _ => []

/-- The children; text nodes have none. -/
def XNode.nodeChildren : XNode → List XNode
  | .elem _ _ c => c
  | .text _ => []

/-- Attribute lookup (`el.attrs?.name`). -/
def lookupAttr (attrs : List (String × String)) (k : String) : Option String :=
  (attrs.find? (fun p => p.1 == k)).map (·.2)

/-- `el.attrs?.name` on a node. -/
def XNode.attr (x : XNode) (k : String) : Option String :=
  lookupAttr x.nodeAttrs k

/-- Whether a node is a text child (a plain string in xmpp.js). -/
def XNode.isTextNode : XNode → Bool
  | .elem _ _ _ => false
  | .text _ => true

/-- ltx `getChildren(name)`: element children with the given name (text
    children never match). -/
def XNode.getChildren (x : XNode) (n : String) : List XNode :=
  x.nodeChildren.filter (fun c => !c.isTextNode && c.nodeName == n)

/-- ltx `getChild(name)`: first element child with the given name. -/
def XNode.getChild (x : XNode) (n : String) : Option XNode :=
  (x.getChildren n).head?

/-- ltx `getChild(name, xmlns)`: first element child with the given name
    whose `xmlns` attribute is the given namespace. -/
def XNode.getChildNS (x : XNode) (n ns : String) : Option XNode :=
  (x.nodeChildren.filter (fun c =>
    !c.isTextNode && c.nodeName == n && lookupAttr c.nodeAttrs "xmlns" == some ns)).head?

/-- ltx `getText()`: concatenation of the direct text children. -/
def XNode.getText (x : XNode) : String :=
  x.nodeChildren.foldl (fun acc c =>
    match c with
    | .text s => acc ++ s
    | .elem _ _ _ => acc) ""

/-- ltx `getChildText(name)`: text of the first child with that name,
    `null` when the child is absent. -/
def XNode.getChildText (x : XNode) (n : String) : Option String :=
  (x.getChild n).map XNode.getText

/-- The helper `getElementText` from `omemo/index.ts` and `omemo/bundle.ts`:
    the FIRST string child, or the empty string. -/
def firstTextOfChildren : List XNode → String
  | [] => ""
  | .text s :: _ => s
  | .elem _ _ _ :: rest => firstTextOfChildren rest

/-- `getElementText(el)` on a node. -/
def XNode.firstText (x : XNode) : String :=
  firstTextOfChildren x.nodeChildren

-- =============================================================================
-- Namespace constants (`src/omemo/types.ts`)
-- =============================================================================

/-- Legacy OMEMO namespace. -/
def NS_OMEMO_LEGACY : String := "eu.siacs.conversations.axolotl"

/-- Legacy OMEMO device-list PEP node. -/
def NS_OMEMO_DEVICES_LEGACY : String := NS_OMEMO_LEGACY ++ ".devicelist"

/-- OMEMO 2.0 namespace. -/
def NS_OMEMO_V2 : String := "urn:xmpp:omemo:2"

/-- Primary namespace used for publishing (the legacy one). -/
def NS_OMEMO : String := NS_OMEMO_LEGACY

/-- Primary device-list node used for publishing and cache routing. -/
def NS_OMEMO_DEVICES : String := NS_OMEMO_DEVICES_LEGACY

/-- All recognized encrypted-element namespaces, in the order the code
    checks them. -/
def OMEMO_NAMESPACES : List String := [NS_OMEMO_LEGACY, NS_OMEMO_V2]

-- =============================================================================
-- OmemoStore: identity trust (`store.ts`, isTrustedIdentity / saveIdentity)
-- =============================================================================

/-- The per-peer identity-key map of `OmemoStore` (`identities` field):
    `peer-jid.device-id` keys mapped to raw identity-key bytes. -/
structure IdentityMap where
  entries : List (String × List Nat)

/-- `OmemoStore.isTrustedIdentity(identifier, identityKey, direction)`:
    the ALWAYS-TRUST policy.  The source returns `true` and performs no
    other action; the result is paired with the (unchanged) store state to
    make the absence of side effects visible. -/
def isTrustedIdentity (st : IdentityMap) (_identifier : String)
    (_identityKey : List Nat) (_direction : Nat) : Bool × IdentityMap :=
  (true, st)

/-- Byte-wise comparison used by `saveIdentity` (length, then each index). -/
def bytesEqual (a b : List Nat) : Bool :=
  a == b

/-- `OmemoStore.saveIdentity(identifier, identityKey)`: overwrite the entry
    and report whether a previously stored key differed (it returns `false`
    when the key is new). -/
def saveIdentity (st : IdentityMap) (identifier : String) (identityKey : List Nat) :
    Bool × IdentityMap :=
  let existing := alGet st.entries identifier
  let st' : IdentityMap := ⟨alSet st.entries identifier identityKey⟩
  match existing with
  | some old => (!bytesEqual old identityKey, st')
  | none => (false, st')

-- =============================================================================
-- OmemoStore: one-time pre-key pool (`store.ts`, generatePreKeys / removePreKey)
-- =============================================================================

/-- `OmemoStore.generatePreKeys(count)`: the library is asked for keys with
    ids `startId, startId+1, …` (the source draws `startId` at random; here
    it is a parameter) and each is written into the pool with `Map.set`.
    `gen` stands for `KeyHelper.generatePreKey`, producing the key pair. -/
def generatePreKeys {α : Type} (pool : List (Nat × α)) (gen : Nat → α)
    (startId count : Nat) : List (Nat × α) :=
  (List.range count).foldl (fun acc i => alSet acc (startId + i) (gen (startId + i))) pool

/-- `OmemoStore.removePreKey(keyId)`: delete the key, then, when fewer than
    20 keys remain, generate 100 more before returning. -/
def removePreKey {α : Type} (pool : List (Nat × α)) (gen : Nat → α)
    (keyId startId : Nat) : List (Nat × α) :=
  let pool' := alDelete pool keyId
  if pool'.length < 20 then generatePreKeys pool' gen startId 100 else pool'

-- =============================================================================
-- OmemoStore: session records (`store.ts`, loadFromData / storeSession)
-- =============================================================================

/-- An in-memory session value: the Signal library serializes sessions
    either as a JSON string or as an `ArrayBuffer` (modelled as bytes). -/
inductive SessionVal where
  | str (s : String)
  | buf (b : List Nat)

/-- Whether a stored session value is empty (zero-length string or
    zero-length buffer). -/
def sessionValEmpty : SessionVal → Bool
  | .str s => s.length == 0
  | .buf b => b.length == 0

/-- JS `s.startsWith(c)` for a single-character argument: the first
    character is `c`. -/
def jsStartsWithChar (s : String) (c : Char) : Bool :=
  s.toList.head? == some c

/-- The session-restoring loop of `OmemoStore.loadFromData`: entries with a
    zero-length stored string are skipped; strings starting with a brace
    are kept as JSON strings; anything else is base64-decoded into a
    buffer. -/
def loadSessionsFromData (entries : List (String × String)) :
    List (String × SessionVal) :=
  entries.foldl (fun acc kv =>
    if kv.2.length = 0 then acc
    else if jsStartsWithChar kv.2 '\x7b' then alSet acc kv.1 (SessionVal.str kv.2)
    else alSet acc kv.1 (SessionVal.buf (b64Decode kv.2))) []

/-- The dynamic shape of the `record` argument of
    `OmemoStore.storeSession`: `undefined`/`null`, a (possibly boxed)
    string, an `ArrayBuffer`, a typed-array view, an object that merely
    exposes a numeric `byteLength` (copied byte-wise), or anything else. -/
inductive JsSessionRecord where
  | nullRec
  | strRec (s : String) (boxed : Bool)
  | bufRec (b : List Nat)
  | viewRec (b : List Nat)
  | duckRec (b : List Nat)
  | otherRec

/-- `OmemoStore.storeSession(identifier, record)`: empty, null and
    structurally invalid records are rejected silently; otherwise the
    session map is updated and persisted.  The boolean reports whether the
    map was updated (and hence persisted). -/
def storeSession (sessions : List (String × SessionVal)) (identifier : String)
    (record : JsSessionRecord) : List (String × SessionVal) × Bool :=
  match record with
  | .nullRec => (sessions, false)
  | .strRec s _ =>
      if s.length = 0 then (sessions, false)
      else (alSet sessions identifier (SessionVal.str s), true)
  | .bufRec b =>
      if b.length = 0 then (sessions, false)
      else (alSet sessions identifier (SessionVal.buf b), true)
  | .viewRec b =>
      if b.length = 0 then (sessions, false)
      else (alSet sessions identifier (SessionVal.buf b), true)
  | .duckRec b =>
      if b.length = 0 then (sessions, false)
      else (alSet sessions identifier (SessionVal.buf b), true)
  | .otherRec => (sessions, false)

/-- The predicate describing the records `storeSession` rejects: exactly
    the empty, null, and structurally invalid ones. -/
def sessionRecordRejected : JsSessionRecord → Bool
  | .nullRec => true
  | .strRec s _ => s.length == 0
  | .bufRec b => b.length == 0
  | .viewRec b => b.length == 0
  | .duckRec b => b.length == 0
  | .otherRec => true

-- =============================================================================
-- Device-list wire parsing (`src/omemo/device.ts`, parseDeviceListEvent)
-- =============================================================================

/-- A parsed device entry (`OmemoDevice` in `types.ts`). -/
structure OmemoDevice where
  id : Int
  label : Option String
deriving DecidableEq

/-- `parseDeviceListEvent(itemPayload)`: accept `list` (legacy) or
    `devices` (OMEMO 2.0) payloads, keep the `device` children whose `id`
    attribute parses as an integer, silently drop the rest. -/
def parseDeviceListEvent (itemPayload : XNode) : List OmemoDevice :=
  if !(itemPayload.nodeName == "list" || itemPayload.nodeName == "devices") then []
  else
    (itemPayload.getChildren "device").foldl (fun acc el =>
      match jsParseInt (el.attr "id") with
      | some id => acc ++ [⟨id, el.attr "label"⟩]
      | none => acc) []

-- =============================================================================
-- Bundle wire parsing (`src/omemo/bundle.ts`, parseBundle)
-- =============================================================================

/-- A parsed one-time pre-key. -/
structure ParsedPreKey where
  id : Int
  publicKey : List Nat

/-- A parsed signed pre-key. -/
structure ParsedSignedPreKey where
  id : Int
  publicKey : List Nat
  signature : List Nat

/-- A parsed bundle (`OmemoBundle` in `types.ts`). -/
structure ParsedBundle where
  identityKey : List Nat
  signedPreKey : ParsedSignedPreKey
  preKeys : List ParsedPreKey

/-- The signed-pre-key selection of `parseBundle`: try the legacy element
    names first, fall back to the OMEMO 2.0 names when the legacy
    signed-pre-key element is absent (the signature text is re-read from
    the 2.0 element name in that case). -/
def bundleSpkSel (element : XNode) : Option XNode × Option String × String :=
  match element.getChild "signedPreKeyPublic" with
  | some spk => (some spk, jsTruthyText (element.getChildText "signedPreKeySignature"),
      "signedPreKeyId")
  | none => (element.getChild "spk", jsTruthyText (element.getChildText "spks"), "id")

/-- The pre-key element selection of `parseBundle`: legacy `preKeyPublic`
    children with attribute `preKeyId`, else OMEMO 2.0 `pk` children with
    attribute `id`. -/
def bundlePreKeyEls (prekeysElement : XNode) : List XNode × String :=
  let legacy := prekeysElement.getChildren "preKeyPublic"
  if legacy.isEmpty then (prekeysElement.getChildren "pk", "id") else (legacy, "preKeyId")

/-- The pre-key collection loop of `parseBundle`: keep entries whose id
    attribute parses as an integer and whose body text is non-empty. -/
def collectPreKeys (els : List XNode) (idAttr : String) : List ParsedPreKey :=
  els.foldl (fun acc pk =>
    match jsParseInt (pk.attr idAttr) with
    | some pkId =>
        let pkText := pk.firstText
        if pkText = "" then acc else acc ++ [⟨pkId, b64Decode pkText⟩]
    | none => acc) []

/-- `parseBundle(element)`: return `none` (instead of raising) when the
    identity key, signed pre-key, signature, or `prekeys` container is
    missing or malformed; individual bad one-time pre-keys are dropped. -/
def parseBundle (element : XNode) : Option ParsedBundle :=
  if element.nodeName != "bundle" then none
  else
    match jsTruthyText (jsOrText (element.getChildText "identityKey") (element.getChildText "ik")) with
    | none => none
    | some ikText =>
      match bundleSpkSel element with
      | (some spk, some spksText, spkIdAttr) =>
        match jsParseInt (spk.attr spkIdAttr) with
        | none => none
        | some spkId =>
          let spkText := spk.firstText
          if spkText = "" then none
          else
            match element.getChild "prekeys" with
            | none => none
            | some prekeysElement =>
              let sel := bundlePreKeyEls prekeysElement
              some ⟨b64Decode ikText,
                    ⟨spkId, b64Decode spkText, b64Decode spksText⟩,
                    collectPreKeys sel.1 sel.2⟩
      | (_, _, _) => none

-- =============================================================================
-- Device-list cache (`src/omemo/device-cache.ts`)
-- =============================================================================

/-- Cache TTL: 5 minutes in milliseconds. -/
def CACHE_TTL_MS : Nat := 5 * 60 * 1000

/-- A cache entry: the device list and the time it was written. -/
structure CacheEntry where
  devices : List OmemoDevice
  timestamp : Nat

/-- The process-wide device-list cache, keyed by `accountId:bareJid`. -/
structure DevCache where
  entries : List (String × CacheEntry)

/-- `cacheKey(accountId, jid)`: normalise the JID to its bare form. -/
def cacheKey (accountId jid : String) : String :=
  accountId ++ ":" ++ jsSplitFirst jid

/-- `getCachedDevices(accountId, jid)` at time `now`: `none` when absent
    or older than the TTL. -/
def getCachedDevices (cache : DevCache) (now : Nat) (accountId jid : String) :
    Option (List OmemoDevice) :=
  match alGet cache.entries (cacheKey accountId jid) with
  | none => none
  | some e => if now - e.timestamp > CACHE_TTL_MS then none else some e.devices

/-- `setCachedDevices(accountId, jid, devices)` at time `now`. -/
def setCachedDevices (cache : DevCache) (now : Nat) (accountId jid : String)
    (devices : List OmemoDevice) : DevCache :=
  ⟨alSet cache.entries (cacheKey accountId jid) ⟨devices, now⟩⟩

/-- `getDeviceList(accountId, jid, forceRefresh)` at time `now`.
    `fetchResult` stands for the device list the network fetch
    (`fetchDeviceList`) would return.  The result carries the devices, the
    updated cache, and whether a network fetch happened. -/
def getDeviceListCached (cache : DevCache) (now : Nat) (fetchResult : List OmemoDevice)
    (accountId jid : String) (forceRefresh : Bool) :
    List OmemoDevice × DevCache × Bool :=
  let fetch : List OmemoDevice × DevCache × Bool :=
    (fetchResult, setCachedDevices cache now accountId jid fetchResult, true)
  if !forceRefresh then
    match getCachedDevices cache now accountId jid with
    | some cached => (cached, cache, false)
    | none => fetch
  else fetch

/-- `handleDeviceListPepEvent`: events for nodes other than the device-list
    node are ignored; for each pushed item the payload is parsed and the
    cache entry is overwritten ONLY when the parsed device set is
    non-empty.  `items` holds the item payloads. -/
def handleDeviceListPepEvent (cache : DevCache) (now : Nat)
    (accountId fromJid node : String) (items : List XNode) : DevCache :=
  if node != NS_OMEMO_DEVICES then cache
  else
    items.foldl (fun c payload =>
      let devices := parseDeviceListEvent payload
      if devices.length > 0 then
        setCachedDevices c now accountId (jsSplitFirst fromJid) devices
      else c) cache

-- =============================================================================
-- Inbound decryption (`src/omemo/index.ts`)
-- =============================================================================

/-- The two Signal message variants. -/
inductive SignalVariant where
  | prekey
  | regular
deriving DecidableEq

/-- Decryption environment: the store state and the results the effectful
    dependencies would produce.  `signalPre`/`signalReg` stand for
    `cipher.decryptPreKeyWhisperMessage` / `cipher.decryptWhisperMessage`
    on `(senderJid, senderDeviceId, bytes)` (`none` = the call throws);
    `aesDecrypt` stands for `crypto.subtle.decrypt` on
    `(data, key, iv)` followed by UTF-8 decoding (`none` = it throws);
    `occupantRealJid` stands for `getOccupantRealJid(accountId, room, nick)`. -/
structure DecEnv where
  storePresent : Bool
  ourDeviceId : Int
  occupantRealJid : String → String → Option String
  signalPre : String → Int → List Nat → Option (List Nat)
  signalReg : String → Int → List Nat → Option (List Nat)
  aesDecrypt : List Nat → List Nat → List Nat → Option String

/-- `getOmemoEncrypted(stanza)`: the first namespace in `OMEMO_NAMESPACES`
    under which the stanza has an `encrypted` child. -/
def getOmemoEncrypted (stanza : XNode) : Option (XNode × String) :=
  match stanza.getChildNS "encrypted" NS_OMEMO_LEGACY with
  | some e => some (e, NS_OMEMO_LEGACY)
  | none =>
    match stanza.getChildNS "encrypted" NS_OMEMO_V2 with
    | some e => some (e, NS_OMEMO_V2)
    | none => none

/-- `isPreKeyElement(keyEl, namespace)`: legacy `prekey` attribute, or the
    OMEMO 2.0 `kex` attribute when in the 2.0 namespace. -/
def isPreKeyElement (keyEl : XNode) (ns : String) : Bool :=
  let prekeyAttr := keyEl.attr "prekey"
  if prekeyAttr == some "true" || prekeyAttr == some "1" then true
  else if ns == NS_OMEMO_V2 then
    let kex := keyEl.attr "kex"
    kex == some "true" || kex == some "1"
  else false

/-- The key-element search of `decryptOmemoMessage`: legacy keys sit
    directly under the header; OMEMO 2.0 may nest them under `keys`
    elements, searched only when no direct `key` child exists. -/
def findOurKeyElement (header : XNode) (isV2 : Bool) (ourDeviceId : Int) : Option XNode :=
  let keyElements := header.getChildren "key"
  if isV2 && keyElements.isEmpty then
    (header.getChildren "keys").firstM (fun keysEl =>
      (keysEl.getChildren "key").find? (fun k => jsParseInt (k.attr "rid") == some ourDeviceId))
  else
    keyElements.find? (fun k => jsParseInt (k.attr "rid") == some ourDeviceId)

/-- `decryptMessageKey`: try the variant indicated by the hint or by the
    low 4 bits of the first ciphertext byte (3 ⇒ pre-key) first, fall back
    to the other variant, return `none` when both fail.  The second
    component records the variants attempted, in order. -/
def decryptMessageKey (env : DecEnv) (senderJid : String) (senderDeviceId : Int)
    (encryptedKey : List Nat) (isPreKeyHint : Bool) :
    Option (List Nat) × List SignalVariant :=
  let firstByte := encryptedKey.headD 0
  let looksLikePreKey := firstByte % 16 == 3
  let tryPreKeyFirst := isPreKeyHint || looksLikePreKey
  if tryPreKeyFirst then
    match env.signalPre senderJid senderDeviceId encryptedKey with
    | some d => (some d, [SignalVariant.prekey])
    | none =>
      match env.signalReg senderJid senderDeviceId encryptedKey with
      | some d => (some d, [SignalVariant.prekey, SignalVariant.regular])
      | none => (none, [SignalVariant.prekey, SignalVariant.regular])
  else
    match env.signalReg senderJid senderDeviceId encryptedKey with
    | some d => (some d, [SignalVariant.regular])
    | none =>
      match env.signalPre senderJid senderDeviceId encryptedKey with
      | some d => (some d, [SignalVariant.regular, SignalVariant.prekey])
      | none => (none, [SignalVariant.regular, SignalVariant.prekey])

/-- `decryptPayload(ciphertext, key, iv)`: the legacy 32-byte key splits
    into a 16-byte AES key and a 16-byte tag appended to the ciphertext; a
    16-byte key is used as-is; otherwise the first 32 bytes are the key.
    Inputs shorter than 16 bytes raise, as does AES-GCM failure. -/
def decryptPayload (env : DecEnv) (ciphertext key iv : List Nat) : Except Unit String :=
  let aesKeyData : List Nat × List Nat :=
    if key.length = 32 && ciphertext.length > 0 then
      (key.take 16, ciphertext ++ key.drop 16)
    else if key.length = 16 then (key, ciphertext)
    else (key.take 32, ciphertext)
  if aesKeyData.2.length < 16 then Except.error ()
  else
    match env.aesDecrypt aesKeyData.2 aesKeyData.1 iv with
    | some s => Except.ok s
    | none => Except.error ()

/-- The sender-JID determination of `decryptOmemoMessage`.  The outer
    `Option` is `none` when the function returns early because a room
    nickname could not be resolved; the inner `Option` is the computed
    sender JID (still `null` for a group-chat `from` without a resource,
    or when `from` is missing entirely). -/
def computeSenderJid (env : DecEnv) (msgType fromAttr : Option String) :
    Option (Option String) :=
  match fromAttr with
  | some f =>
    if msgType == some "groupchat" then
      if f.contains '/' then
        match env.occupantRealJid (jsSplitFirst f) (afterFirstSlash f) with
        | none => none
        | some sj => some (some sj)
      else some none
    else some (some (jsSplitFirst f))
  | none => some none

/-- The body of the `try` block of `decryptOmemoMessage`, given the located
    `encrypted` element and its namespace.  `Except.error` marks the paths
    on which the original code would throw (caught by the enclosing
    `catch`); `Except.ok none` are the explicit `return null` paths. -/
def decryptOmemoBody (env : DecEnv) (stanza enc : XNode) (ns : String) :
    Except Unit (Option String) :=
  let isV2 := ns == NS_OMEMO_V2
  let payloadText := enc.getChildText "payload"
  match enc.getChild "header" with
  | none => Except.ok none
  | some header =>
    match jsParseInt (header.attr "sid") with
    | none => Except.ok none
    | some senderDeviceId =>
      match jsTruthyText (header.getChildText "iv") with
      | none => Except.ok none
      | some ivText =>
        let iv := b64Decode ivText
        match findOurKeyElement header isV2 env.ourDeviceId with
        | none => Except.ok none
        | some ourKeyElement =>
          let encryptedKey := b64Decode ourKeyElement.firstText
          let isPreKeyMessage := isPreKeyElement ourKeyElement ns
          match computeSenderJid env (stanza.attr "type") (stanza.attr "from") with
          | none => Except.ok none
          | some senderJid? =>
            match senderJid? with
            | none => Except.ok none
            | some senderJid =>
              match (decryptMessageKey env senderJid senderDeviceId encryptedKey
                  isPreKeyMessage).1 with
              | none => Except.ok none
              | some messageKey =>
                match jsTruthyText payloadText with
                | none => Except.ok none
                | some payload =>
                  match decryptPayload env (b64Decode payload) messageKey iv with
                  | Except.ok plaintext => Except.ok (some plaintext)
                  | Except.error e => Except.error e

/-- `decryptOmemoMessage(accountId, stanza)`: `null` when the store is
    missing or the stanza carries no OMEMO element; otherwise the `try`
    body, with every thrown exception caught and turned into `null`. -/
def decryptOmemoMessage (env : DecEnv) (stanza : XNode) : Option String :=
  if !env.storePresent then none
  else
    match getOmemoEncrypted stanza with
    | none => none
    | some (enc, ns) =>
      match decryptOmemoBody env stanza enc ns with
      | Except.ok r => r
      | Except.error _ => none

-- =============================================================================
-- Outbound encryption (`src/omemo/index.ts`)
-- =============================================================================

/-- The outcome of `cipher.encrypt` on the 32-byte message key, after the
    body-format normalisation in `encryptKeyForDevice`. -/
structure EncKeyResult where
  encryptedKey : List Nat
  isPreKey : Bool

/-- Encryption environment.  `deviceList jid` stands for
    `getDeviceList(accountId, jid, false)` (empty string = own list);
    `encKey (targetJid, deviceId)` stands for the outcome of
    `encryptKeyForDevice`'s session-establishment and Signal encryption
    (`none` covers both a missing bundle, which makes the source return
    `null`, and a thrown error, which the call sites catch and ignore);
    `aesKeyBytes`/`ivBytes` are the random key and nonce;
    `payloadEnc plaintext` is the `(ciphertext, authTag)` pair produced by
    `encryptPayloadLegacy`. -/
structure EncEnv where
  storePresent : Bool
  ourDeviceId : Int
  selfJid : String
  deviceList : String → List OmemoDevice
  encKey : String → Int → Option EncKeyResult
  aesKeyBytes : List Nat
  ivBytes : List Nat
  payloadEnc : String → List Nat × List Nat
  roomOmemoCapable : String → Bool
  occupantJids : String → Option (List String)

/-- The target-JID resolution of `encryptKeyForDevice`:
    `recipientJid || store.getSelfJid() || accountId`. -/
def encryptKeyForDevice (env : EncEnv) (accountId recipientJid : String)
    (deviceId : Int) : Option EncKeyResult :=
  let targetJid :=
    if recipientJid ≠ "" then recipientJid
    else if env.selfJid ≠ "" then env.selfJid
    else accountId
  env.encKey targetJid deviceId

/-- The `key` element built for one successful per-device encryption:
    `rid` first, then `prekey="true"` only for pre-key variants, body the
    base64 of the Signal ciphertext. -/
def mkKeyElem (deviceId : Int) (r : EncKeyResult) : XNode :=
  XNode.elem "key"
    ([("rid", toString deviceId)] ++ (if r.isPreKey then [("prekey", "true")] else []))
    [XNode.text (b64Encode r.encryptedKey)]

/-- The composite `encrypted` element both encryptors build: a `header`
    with `sid`, the key elements, an `iv` child, then the `payload`. -/
def buildEncryptedElement (ourDeviceId : Int) (keyElements : List XNode)
    (iv ciphertext : List Nat) : XNode :=
  XNode.elem "encrypted" [("xmlns", NS_OMEMO)]
    [XNode.elem "header" [("sid", toString ourDeviceId)]
       (keyElements ++ [XNode.elem "iv" [] [XNode.text (b64Encode iv)]]),
     XNode.elem "payload" [] [XNode.text (b64Encode ciphertext)]]

/-- `encryptOmemoMessage(accountId, recipientJid, plaintext)`: fail on a
    missing store or an empty recipient device list; otherwise encrypt the
    message key for every recipient device and for every OTHER own device
    (the own list filtered by `d.id !== ourDeviceId`), skipping devices
    whose per-device encryption fails, and fail when no key element at all
    was produced. -/
def encryptOmemoMessage (env : EncEnv) (accountId recipientJid plaintext : String) :
    Option XNode :=
  if !env.storePresent then none
  else
    let devices := env.deviceList recipientJid
    if devices.isEmpty then none
    else
      let ownDevices := env.deviceList ""
      let otherOwnDevices := ownDevices.filter (fun d => d.id != env.ourDeviceId)
      let ct := env.payloadEnc plaintext
      let keyElements :=
        devices.filterMap (fun d =>
          (encryptKeyForDevice env accountId recipientJid d.id).map (mkKeyElem d.id))
        ++ otherOwnDevices.filterMap (fun d =>
          (encryptKeyForDevice env accountId "" d.id).map (mkKeyElem d.id))
      if keyElements.isEmpty then none
      else some (buildEncryptedElement env.ourDeviceId keyElements env.ivBytes ct.1)

/-- `encryptMucOmemoMessage(accountId, roomJid, plaintext)`: fail when the
    room is not OMEMO-capable, when no occupant real JIDs are available, or
    when the occupants have no devices; otherwise encrypt for every
    occupant device and for ALL own devices (including the current one),
    skipping devices whose per-device encryption fails, and fail when no
    key element at all was produced. -/
def encryptMucOmemoMessage (env : EncEnv) (accountId roomJid plaintext : String) :
    Option XNode :=
  if !env.storePresent then none
  else if !env.roomOmemoCapable roomJid then none
  else
    match env.occupantJids roomJid with
    | none => none
    | some occupantJids =>
      if occupantJids.isEmpty then none
      else
        let allDevices :=
          (occupantJids.map (fun jid => (env.deviceList jid).map (fun d => (jid, d.id)))).flatten
        if allDevices.isEmpty then none
        else
          let ownDevicesToEncrypt := env.deviceList ""
          let ct := env.payloadEnc plaintext
          let keyElements :=
            allDevices.filterMap (fun p =>
              (encryptKeyForDevice env accountId p.1 p.2).map (mkKeyElem p.2))
            ++ ownDevicesToEncrypt.filterMap (fun d =>
              (encryptKeyForDevice env accountId "" d.id).map (mkKeyElem d.id))
          if keyElements.isEmpty then none
          else some (buildEncryptedElement env.ourDeviceId keyElements env.ivBytes ct.1)

/-- The `rid` attributes of the key elements under the header of a
    produced encrypted element, in order. -/
def ridAttrs (x : XNode) : List String :=
  match x.getChild "header" with
  | some h => (h.getChildren "key").filterMap (fun k => k.attr "rid")
  | none => []

/-- The rid list of an optional encryption result (empty for `none`). -/
def ridsOfResult : Option XNode → List String
  | none => []
  | some e => ridAttrs e

-- =============================================================================
-- Reply delivery (`src/inbound.ts` deliverReply, `src/outbound.ts` sendXmppMedia,
-- `src/chat-state.ts` sendChatState, `src/omemo/index.ts` buildOmemoMessageStanza)
-- =============================================================================

/-- The fixed fallback body `buildOmemoMessageStanza` attaches for clients
    without OMEMO support. -/
def OMEMO_FALLBACK_BODY : String :=
  "I sent you an OMEMO encrypted message but your client doesn\x27t seem to support that."

/-- `buildOmemoMessageStanza(to, encryptedElement, msgType)`: the message
    stanza with the encrypted element, the EME hint, the storage hint, and
    the fixed fallback body.  The randomly generated message id is the
    `messageId` parameter. -/
def buildOmemoMessageStanza (toJid : String) (encryptedElement : XNode)
    (msgType messageId : String) : XNode :=
  XNode.elem "message" [("to", toJid), ("type", msgType), ("id", messageId)]
    [encryptedElement,
     XNode.elem "encryption"
       [("xmlns", "urn:xmpp:eme:0"), ("namespace", NS_OMEMO), ("name", "OMEMO")] [],
     XNode.elem "store" [("xmlns", "urn:xmpp:hints")] [],
     XNode.elem "body" [] [XNode.text OMEMO_FALLBACK_BODY]]

/-- A XEP-0085 chat-state stanza as built by `sendChatState`. -/
def chatStateStanza (toJid : String) (isMuc : Bool) (state : String) : XNode :=
  XNode.elem "message" [("to", toJid), ("type", if isMuc then "groupchat" else "chat")]
    [XNode.elem state [("xmlns", "http://jabber.org/protocol/chatstates")] []]

/-- The XEP-0066 out-of-band element attached to media messages
    (`buildOobElement` without description). -/
def oobElement (url : String) : XNode :=
  XNode.elem "x" [("xmlns", "jabber:x:oob")] [XNode.elem "url" [] [XNode.text url]]

/-- The possible outcomes of the upload phase of `sendXmppMedia`:
    no upload service (error return, nothing sent), fetch or upload threw
    (error return, nothing sent), upload succeeded with a share URL, or
    upload rejected (falls back to sharing the original URL). -/
inductive MediaOutcome where
  | noService
  | fetchError
  | uploaded (url : String)
  | uploadFallback

/-- `sendXmppMedia(config, to, mediaUrl, caption)`: after a successful (or
    falls-back) upload, a non-blank caption is sent first as its own
    plain-body message, then the media message whose body is only the share
    URL plus the OOB element.  Message ids are the `messageId` parameter. -/
def sendXmppMedia (outcome : MediaOutcome) (toJid : String) (isMucTo : Bool)
    (mediaUrl : String) (caption : Option String) (messageId : String) : List XNode :=
  let msgType := if isMucTo then "groupchat" else "chat"
  let captionStanzas : List XNode :=
    match caption with
    | some c =>
        if jsTrim c ≠ "" then
          [XNode.elem "message" [("to", toJid), ("type", msgType), ("id", messageId)]
             [XNode.elem "body" [] [XNode.text c]]]
        else []
    | none => []
  let mediaStanza (shareUrl : String) : XNode :=
    XNode.elem "message" [("to", toJid), ("type", msgType), ("id", messageId)]
      [XNode.elem "body" [] [XNode.text shareUrl], oobElement shareUrl]
  match outcome with
  | .noService => []
  | .fetchError => []
  | .uploaded u => captionStanzas ++ [mediaStanza u]
  | .uploadFallback => captionStanzas ++ [mediaStanza mediaUrl]

/-- The outcome of an `encryptOmemoMessage` / `encryptMucOmemoMessage`
    call as observed by `deliverReply`: an element, `null`, or a thrown
    error with its message. -/
inductive EncOutcome where
  | ok (e : XNode)
  | nullResult
  | threw (err : String)

/-- The reply payload handed to the deliver callback. -/
structure ReplyPayload where
  text : Option String
  markdown : Option String
  mediaUrl : Option String
  mediaUrls : List String

/-- The fields of the inbound message `deliverReply` consults. -/
structure InMsg where
  isGroup : Bool
  roomJid : Option String
  id : Option String
  senderJidForOmemo : Option String

/-- Delivery environment: connection state, OMEMO enablement
    (`isOmemoEnabled`), room capability (`isRoomOmemoCapable`), the
    outcomes of the two encryptors on `(target, text)`, per-URL media
    outcomes, local-file resolution failures (which `continue` past a URL),
    the MUC-JID heuristics used for stanza types, and the generated message
    id (abstracted by one oracle value; ids play no role in any claim). -/
structure DeliverEnv where
  clientPresent : Bool
  omemoEnabled : Bool
  roomOmemoCapable : String → Bool
  dmEncOutcome : String → String → EncOutcome
  mucEncOutcome : String → String → EncOutcome
  mediaOutcome : String → MediaOutcome
  mediaResolveFails : String → Bool
  looksLikeMuc : String → Bool
  isMucTo : String → Bool
  msgId : String

/-- Warning body used when an encryptor returns `null`. -/
def warnBodyEmpty : String :=
  "⚠️ Failed to encrypt reply (OMEMO encryption returned empty). Message not sent for security."

/-- Warning body used when an encryptor throws. -/
def warnBodyThrew (err : String) : String :=
  "⚠️ Failed to encrypt reply: " ++ err ++ ". Message not sent for security."

/-- A warning stanza as built inline by `deliverReply`. -/
def warningStanza (toJid msgType msgId body : String) : XNode :=
  XNode.elem "message" [("to", toJid), ("type", msgType), ("id", msgId)]
    [XNode.elem "body" [] [XNode.text body]]

/-- `deliverReply(payload, message, …)`: the ordered list of message
    stanzas handed to `xmppClient.send` (including those sent inside
    `sendXmppMedia` and `sendChatState`).  Translated branch by branch:
    media first (captions ride along as plain bodies), then the text path
    with its OMEMO checks — note a group reply in a room that is not
    OMEMO-capable falls through to the PLAIN branch even when OMEMO is
    enabled. -/
def deliverReply (env : DeliverEnv) (payload : ReplyPayload) (msg : InMsg)
    (_accountId senderIdentity : String) : List XNode :=
  if !env.clientPresent then []
  else
    let replyTo := if msg.isGroup then msg.roomJid.getD "" else jsSplitFirst senderIdentity
    let msgType := if msg.isGroup then "groupchat" else "chat"
    let textToSend := jsOrText payload.markdown payload.text
    let composing := chatStateStanza replyTo (env.looksLikeMuc replyTo) "composing"
    let activeSt := chatStateStanza replyTo (env.looksLikeMuc replyTo) "active"
    let allMediaUrls :=
      (match payload.mediaUrl with
       | some u => if u ≠ "" then [u] else []
       | none => []) ++ payload.mediaUrls
    if allMediaUrls ≠ [] then
      let mediaStanzas := (allMediaUrls.enum.map (fun p =>
        if env.mediaResolveFails p.2 then []
        else sendXmppMedia (env.mediaOutcome p.2) replyTo (env.isMucTo replyTo) p.2
          (if p.1 = 0 then textToSend else none) env.msgId)).flatten
      [composing] ++ mediaStanzas ++ [activeSt]
    else
      match jsTruthyText textToSend with
      | none => [composing, activeSt]
      | some text =>
        let shouldEncryptDm := !msg.isGroup && env.omemoEnabled
        let shouldEncryptMuc := msg.isGroup && env.omemoEnabled
          && env.roomOmemoCapable (jsSplitFirst replyTo)
        if shouldEncryptDm then
          let recipientJid :=
            (jsOrText msg.senderJidForOmemo (some (jsSplitFirst senderIdentity))).getD ""
          match env.dmEncOutcome recipientJid text with
          | .ok e =>
              [composing, buildOmemoMessageStanza replyTo e "chat" env.msgId, activeSt]
          | .nullResult =>
              [composing, warningStanza replyTo "chat" env.msgId warnBodyEmpty, activeSt]
          | .threw err =>
              [composing, warningStanza replyTo "chat" env.msgId (warnBodyThrew err), activeSt]
        else if shouldEncryptMuc then
          let roomJid := jsSplitFirst replyTo
          match env.mucEncOutcome roomJid text with
          | .ok e =>
              [composing, buildOmemoMessageStanza replyTo e "groupchat" env.msgId, activeSt]
          | .nullResult =>
              [composing, warningStanza replyTo "groupchat" env.msgId warnBodyEmpty, activeSt]
          | .threw err =>
              [composing, warningStanza replyTo "groupchat" env.msgId (warnBodyThrew err),
               activeSt]
        else
          let replyChildren :=
            [XNode.elem "body" [] [XNode.text text]] ++
            (match jsTruthyText msg.id with
             | some omid =>
                 [XNode.elem "reply"
                    [("xmlns", "urn:xmpp:reply:0"), ("to", senderIdentity), ("id", omid)] []]
             | none => [])
          [composing,
           XNode.elem "message" [("to", replyTo), ("type", msgType), ("id", env.msgId)]
             replyChildren,
           activeSt]

/-- Whether a stanza carries the given text as the full contents of one of
    its `body` children. -/
def stanzaHasBodyText (plaintext : String) (st : XNode) : Bool :=
  (st.getChildren "body").any (fun b => b.getText == plaintext)

/-- Whether any stanza in a list carries the text as a `body`. -/
def anyStanzaHasBodyText (plaintext : String) (sts : List XNode) : Bool :=
  sts.any (stanzaHasBodyText plaintext)

-- =============================================================================
-- Helper lemmas about the association-map operations
-- =============================================================================

theorem find?_map_overwrite {κ α : Type} [BEq κ] [LawfulBEq κ]
    (m : List (κ × α)) (k : κ) (v : α) :
    ((m.map (fun q => if q.1 == k then (k, v) else q)).find? (fun p => p.1 == k)) =
      (if m.any (fun p => p.1 == k) then some (k, v) else none) := by
  induction m with
  | nil => simp
  | cons p t ih =>
    by_cases hp : p.1 == k
    · simp [hp]
    · simp only [Bool.not_eq_true] at hp
      rw [List.map_cons, if_neg (by simp [hp]), List.find?_cons_of_neg _ (by simp [hp]), ih,
        List.any_cons, hp, Bool.false_or]

theorem alGet_alSet_self {κ α : Type} [BEq κ] [LawfulBEq κ]
    (m : List (κ × α)) (k : κ) (v : α) : alGet (alSet m k v) k = some v := by
  unfold alGet alSet
  by_cases h : m.any (fun p => p.1 == k)
  · rw [if_pos h, find?_map_overwrite, if_pos h]
    rfl
  · rw [if_neg h, List.find?_append]
    have hnone : m.find? (fun p => p.1 == k) = none := by
      rw [List.find?_eq_none]
      intro x hx
      intro hxk
      exact h (List.any_eq_true.mpr ⟨x, hx, hxk⟩)
    rw [hnone]
    simp

theorem mem_alSet {κ α : Type} [BEq κ] [LawfulBEq κ]
    (m : List (κ × α)) (k : κ) (v : α) (x : κ × α) (hx : x ∈ alSet m k v) :
    x ∈ m ∨ x = (k, v) := by
  unfold alSet at hx
  by_cases h : m.any (fun p => p.1 == k)
  · rw [if_pos h] at hx
    rcases List.mem_map.mp hx with ⟨p, hp, hfp⟩
    by_cases hpk : p.1 == k
    · right
      rw [if_pos hpk] at hfp
      exact hfp.symm
    · left
      rw [if_neg hpk] at hfp
      rwa [hfp] at hp
  · rw [if_neg h] at hx
    rcases List.mem_append.mp hx with h1 | h1
    · exact Or.inl h1
    · exact Or.inr (List.mem_singleton.mp h1)

theorem alKeys_alSet {κ α : Type} [BEq κ] [LawfulBEq κ]
    (m : List (κ × α)) (k : κ) (v : α) :
    alKeys (alSet m k v) =
      if m.any (fun p => p.1 == k) then alKeys m else alKeys m ++ [k] := by
  unfold alSet alKeys
  by_cases h : m.any (fun p => p.1 == k)
  · rw [if_pos h, if_pos h, List.map_map]
    apply List.map_congr_left
    intro p _
    by_cases hpk : p.1 == k
    · simp only [Function.comp_apply, if_pos hpk]
      exact (eq_of_beq hpk).symm
    · simp [Function.comp_apply, hpk]
  · rw [if_neg h, if_neg h]
    simp

theorem any_key_iff_mem {κ α : Type} [BEq κ] [LawfulBEq κ]
    (m : List (κ × α)) (k : κ) :
    m.any (fun p => p.1 == k) = true ↔ k ∈ alKeys m := by
  constructor
  · intro h
    rcases List.any_eq_true.mp h with ⟨p, hp, hpk⟩
    exact List.mem_map.mpr ⟨p, hp, eq_of_beq hpk⟩
  · intro h
    rcases List.mem_map.mp h with ⟨p, hp, hpk⟩
    exact List.any_eq_true.mpr ⟨p, hp, beq_iff_eq.mpr hpk⟩

theorem mem_alKeys_alSet {κ α : Type} [BEq κ] [LawfulBEq κ]
    (m : List (κ × α)) (k : κ) (v : α) (a : κ) :
    a ∈ alKeys (alSet m k v) ↔ a = k ∨ a ∈ alKeys m := by
  rw [alKeys_alSet]
  by_cases h : m.any (fun p => p.1 == k)
  · rw [if_pos h]
    have hk : k ∈ alKeys m := (any_key_iff_mem m k).mp h
    constructor
    · exact Or.inr
    · rintro (rfl | ha)
      · exact hk
      · exact ha
  · rw [if_neg h]
    simp [List.mem_append, or_comm]

theorem nodup_alKeys_alSet {κ α : Type} [BEq κ] [LawfulBEq κ]
    (m : List (κ × α)) (k : κ) (v : α) (hm : (alKeys m).Nodup) :
    (alKeys (alSet m k v)).Nodup := by
  rw [alKeys_alSet]
  by_cases h : m.any (fun p => p.1 == k)
  · rwa [if_pos h]
  · rw [if_neg h]
    refine List.Nodup.append hm (List.nodup_singleton k) ?_
    intro a ha hb
    rcases List.mem_singleton.mp hb with rfl
    exact (h ((any_key_iff_mem m a).mpr ha)).elim

theorem alKeys_alDelete_sublist {κ α : Type} [BEq κ]
    (m : List (κ × α)) (k : κ) :
    (alKeys (alDelete m k)).Sublist (alKeys m) :=
  List.Sublist.map _ (List.filter_sublist m)

theorem nodup_alKeys_alDelete {κ α : Type} [BEq κ]
    (m : List (κ × α)) (k : κ) (hm : (alKeys m).Nodup) :
    (alKeys (alDelete m k)).Nodup :=
  (alKeys_alDelete_sublist m k).nodup hm

theorem length_eq_card_keys {κ α : Type} [DecidableEq κ]
    (m : List (κ × α)) (hm : (alKeys m).Nodup) :
    m.length = (alKeys m).toFinset.card := by
  rw [List.toFinset_card_of_nodup hm]
  simp [alKeys]

-- =============================================================================
-- C4: blind trust
-- =============================================================================

/-- C4 counterexample: `is-trusted-identity` does return `true`, but it
    does NOT save the argument key — calling it on an empty store leaves
    the identity map empty, so the key is not retrievable afterwards,
    contradicting the claim that the key is saved as a side effect. -/
theorem c4_blind_trust_counterexample :
    (isTrustedIdentity ⟨[]⟩ "alice@example.com.42" [1, 2, 3] 1).1 = true ∧
    alGet (isTrustedIdentity ⟨[]⟩ "alice@example.com.42" [1, 2, 3] 1).2.entries
      "alice@example.com.42" = none := by
  exact ⟨rfl, rfl⟩

/-- C4 (amended): for every store state, peer identifier, identity key and
    direction, `is-trusted-identity` returns `true` and leaves the store
    completely unchanged; keys are saved only by explicit `save-identity`
    calls, which overwrite the entry. -/
theorem c4_blind_trust_amended (st : IdentityMap) (p : String)
    (k : List Nat) (dir : Nat) :
    isTrustedIdentity st p k dir = (true, st) ∧
    alGet (saveIdentity st p k).2.entries p = some k := by
  refine ⟨rfl, ?_⟩
  unfold saveIdentity
  cases alGet st.entries p <;> simpa using alGet_alSet_self st.entries p k

-- =============================================================================
-- C7: Signal decrypt hint order and fallback
-- =============================================================================

/-- C7: `decryptMessageKey` attempts the pre-key variant first exactly when
    the hint is set or the low 4 bits of the first ciphertext byte equal 3,
    attempts the other variant exactly when the first fails, and returns
    `none` iff both variants fail. -/
theorem c7_decrypt_hint_order (env : DecEnv) (jid : String) (did : Int)
    (key : List Nat) (hint : Bool) :
    ((decryptMessageKey env jid did key hint).2.head? =
      some (if hint || (key.headD 0) % 16 == 3 then SignalVariant.prekey
            else SignalVariant.regular)) ∧
    ((if hint || (key.headD 0) % 16 == 3 then env.signalPre jid did key
      else env.signalReg jid did key) = none →
      (decryptMessageKey env jid did key hint).2 =
        (if hint || (key.headD 0) % 16 == 3 then
          [SignalVariant.prekey, SignalVariant.regular]
         else [SignalVariant.regular, SignalVariant.prekey])) ∧
    ((if hint || (key.headD 0) % 16 == 3 then env.signalPre jid did key
      else env.signalReg jid did key).isSome →
      (decryptMessageKey env jid did key hint).2 =
        (if hint || (key.headD 0) % 16 == 3 then [SignalVariant.prekey]
         else [SignalVariant.regular])) ∧
    ((decryptMessageKey env jid did key hint).1 = none ↔
      env.signalPre jid did key = none ∧ env.signalReg jid did key = none) := by
  by_cases h : (hint || (key.headD 0) % 16 == 3) = true
  · rw [show decryptMessageKey env jid did key hint =
        (match env.signalPre jid did key with
         | some d => (some d, [SignalVariant.prekey])
         | none =>
           match env.signalReg jid did key with
           | some d => (some d, [SignalVariant.prekey, SignalVariant.regular])
           | none => (none, [SignalVariant.prekey, SignalVariant.regular])) from by
      unfold decryptMessageKey
      rw [if_pos h]]
    have h' : hint = true ∨ (key.head?.getD 0) % 16 = 3 := by
      simpa [List.headD_eq_head?_getD] using h
    cases hpre : env.signalPre jid did key <;> cases hreg : env.signalReg jid did key <;>
      simp [h', hpre, hreg]
  · simp only [Bool.not_eq_true] at h
    rw [show decryptMessageKey env jid did key hint =
        (match env.signalReg jid did key with
         | some d => (some d, [SignalVariant.regular])
         | none =>
           match env.signalPre jid did key with
           | some d => (some d, [SignalVariant.regular, SignalVariant.prekey])
           | none => (none, [SignalVariant.regular, SignalVariant.prekey])) from by
      unfold decryptMessageKey
      rw [if_neg (by rw [h]; exact Bool.false_ne_true)]]
    have h1 : hint = false := by
      cases hint
      · rfl
      · simp at h
    have h2 : ((key.headD 0) % 16 == 3) = false := by
      rw [h1] at h
      simpa using h
    have h' : ¬(hint = true ∨ (key.head?.getD 0) % 16 = 3) := by
      rw [List.headD_eq_head?_getD] at h2
      simp [h1]
      simpa using h2
    cases hpre : env.signalPre jid did key <;> cases hreg : env.signalReg jid did key <;>
      simp [h', hpre, hreg]

/-- C7 witness: with a ciphertext whose first byte is `0x03` and no hint,
    both variants failing makes the whole decryption fail, via the theorem
    itself at a concrete environment. -/
def c7envBothFail : DecEnv where
  storePresent := true
  ourDeviceId := 7
  occupantRealJid := fun _ _ => none
  signalPre := fun _ _ _ => none
  signalReg := fun _ _ _ => none
  aesDecrypt := fun _ _ _ => none

theorem c7_decrypt_hint_order_witness :
    (false || (([3, 5] : List Nat).headD 0) % 16 == 3) = true ∧
    (decryptMessageKey c7envBothFail "peer@s" 9 [3, 5] false).1 = none :=
  ⟨by decide,
   (c7_decrypt_hint_order c7envBothFail "peer@s" 9 [3, 5] false).2.2.2.mpr ⟨rfl, rfl⟩⟩

-- =============================================================================
-- C5: pre-key pool refill
-- =============================================================================

theorem generatePreKeys_succ {α : Type} (pool : List (Nat × α)) (gen : Nat → α)
    (startId n : Nat) :
    generatePreKeys pool gen startId (n + 1) =
      alSet (generatePreKeys pool gen startId n) (startId + n) (gen (startId + n)) := by
  unfold generatePreKeys
  rw [List.range_succ, List.foldl_append]
  rfl

theorem nodup_keys_generatePreKeys {α : Type} (pool : List (Nat × α)) (gen : Nat → α)
    (startId n : Nat) (h : (alKeys pool).Nodup) :
    (alKeys (generatePreKeys pool gen startId n)).Nodup := by
  induction n with
  | zero => simpa [generatePreKeys] using h
  | succ n ih =>
    rw [generatePreKeys_succ]
    exact nodup_alKeys_alSet _ _ _ ih

theorem mem_keys_generatePreKeys {α : Type} (pool : List (Nat × α)) (gen : Nat → α)
    (startId n i : Nat) (hi : i < n) :
    startId + i ∈ alKeys (generatePreKeys pool gen startId n) := by
  induction n with
  | zero => exact absurd hi (Nat.not_lt_zero i)
  | succ n ih =>
    rw [generatePreKeys_succ]
    rcases Nat.lt_succ_iff_lt_or_eq.mp hi with h | h
    · exact (mem_alKeys_alSet _ _ _ _).mpr (Or.inr (ih h))
    · exact (mem_alKeys_alSet _ _ _ _).mpr (Or.inl (by rw [h]))

/-- C5: for every pool state with distinct key ids, whenever a
    `remove-pre-key` call leaves fewer than 20 one-time pre-keys, 100 fresh
    keys are generated before the call returns, so the pool observed after
    the call holds at least 100 entries. -/
theorem c5_prekey_refill {α : Type} (pool : List (Nat × α)) (gen : Nat → α)
    (keyId startId : Nat) (hnodup : (alKeys pool).Nodup)
    (hlow : (alDelete pool keyId).length < 20) :
    100 ≤ (removePreKey pool gen keyId startId).length := by
  unfold removePreKey
  rw [if_pos hlow]
  have hn : (alKeys (alDelete pool keyId)).Nodup := nodup_alKeys_alDelete pool keyId hnodup
  have hres : (alKeys (generatePreKeys (alDelete pool keyId) gen startId 100)).Nodup :=
    nodup_keys_generatePreKeys _ gen startId 100 hn
  have hsub : (Finset.range 100).image (fun i => startId + i) ⊆
      (alKeys (generatePreKeys (alDelete pool keyId) gen startId 100)).toFinset := by
    intro x hx
    rcases Finset.mem_image.mp hx with ⟨i, hi, rfl⟩
    exact List.mem_toFinset.mpr
      (mem_keys_generatePreKeys _ gen startId 100 i (Finset.mem_range.mp hi))
  have hcard : ((Finset.range 100).image (fun i => startId + i)).card = 100 := by
    rw [Finset.card_image_of_injective _ (add_right_injective startId), Finset.card_range]
  have hle := Finset.card_le_card hsub
  rw [hcard] at hle
  calc 100 ≤ (alKeys (generatePreKeys (alDelete pool keyId) gen startId 100)).toFinset.card :=
        hle
    _ = (generatePreKeys (alDelete pool keyId) gen startId 100).length :=
        (length_eq_card_keys _ hres).symm

/-- C5 witness: removing a key from an empty pool (0 entries, below 20)
    leaves at least 100 keys, via the theorem itself. -/
theorem c5_prekey_refill_witness :
    ((alKeys ([] : List (Nat × Nat))).Nodup ∧ (alDelete ([] : List (Nat × Nat)) 5).length < 20) ∧
    100 ≤ (removePreKey ([] : List (Nat × Nat)) (fun _ => 0) 5 17).length :=
  ⟨⟨by decide, by decide⟩,
   c5_prekey_refill ([] : List (Nat × Nat)) (fun _ => 0) 5 17 (by decide) (by decide)⟩

-- =============================================================================
-- C6: device-list push / cache coherence
-- =============================================================================

theorem takeWhile_self_idem (p : Char → Bool) (l : List Char) :
    (l.takeWhile p).takeWhile p = l.takeWhile p := by
  induction l with
  | nil => rfl
  | cons a t ih =>
    by_cases h : p a
    · simp [List.takeWhile_cons, h, ih]
    · simp [List.takeWhile_cons, h]

theorem jsSplitFirst_idem (s : String) :
    jsSplitFirst (jsSplitFirst s) = jsSplitFirst s := by
  unfold jsSplitFirst
  rw [show (String.mk (s.toList.takeWhile (fun c => c != '/'))).toList =
        s.toList.takeWhile (fun c => c != '/') from rfl,
    takeWhile_self_idem]

theorem cacheKey_split (acct jid : String) :
    cacheKey acct (jsSplitFirst jid) = cacheKey acct jid := by
  unfold cacheKey
  rw [jsSplitFirst_idem]

/-- C6 counterexample: a push notification whose payload parses to the
    EMPTY device set does NOT overwrite the cache — a stale entry with
    devices `[42]` survives, and a `get-device-list` right after the push
    still returns `[42]`, not the pushed empty set. -/
def c6cache : DevCache := ⟨[("acct:peer@s", ⟨[⟨42, none⟩], 0⟩)]⟩

/-- An empty legacy device-list payload. -/
def c6emptyPush : XNode := XNode.elem "list" [("xmlns", NS_OMEMO)] []

theorem c6_push_cache_counterexample :
    parseDeviceListEvent c6emptyPush = [] ∧
    (getDeviceListCached
        (handleDeviceListPepEvent c6cache 0 "acct" "peer@s" NS_OMEMO_DEVICES [c6emptyPush])
        0 [] "acct" "peer@s" false).1 = [⟨42, none⟩] ∧
    ([⟨(42 : Int), none⟩] : List OmemoDevice) ≠ [] :=
  ⟨rfl, rfl, by decide⟩

/-- C6 (amended): a push notification on the device-list node whose item
    parses to a NON-EMPTY device set overwrites the cache entry for
    (account, bare JID) and resets its timestamp, so any
    `get-device-list(…, force-refresh = false)` within the 5-minute TTL
    returns exactly the pushed set without a network fetch; pushes whose
    parsed set is empty leave the cache unchanged. -/
theorem c6_push_cache_amended (cache : DevCache) (now now' : Nat)
    (fetchR : List OmemoDevice) (acct fromJid : String) (payload : XNode)
    (hne : parseDeviceListEvent payload ≠ [])
    (h2 : now' - now ≤ CACHE_TTL_MS) :
    getDeviceListCached
        (handleDeviceListPepEvent cache now acct fromJid NS_OMEMO_DEVICES [payload])
        now' fetchR acct fromJid false =
      (parseDeviceListEvent payload,
       handleDeviceListPepEvent cache now acct fromJid NS_OMEMO_DEVICES [payload],
       false) := by
  have hlen : (parseDeviceListEvent payload).length > 0 := List.length_pos.mpr hne
  have hh : handleDeviceListPepEvent cache now acct fromJid NS_OMEMO_DEVICES [payload] =
      setCachedDevices cache now acct (jsSplitFirst fromJid) (parseDeviceListEvent payload) := by
    unfold handleDeviceListPepEvent
    rw [if_neg (by simp)]
    simp [hlen]
  rw [hh]
  have hget : getCachedDevices
      (setCachedDevices cache now acct (jsSplitFirst fromJid) (parseDeviceListEvent payload))
      now' acct fromJid = some (parseDeviceListEvent payload) := by
    unfold getCachedDevices setCachedDevices
    rw [show cacheKey acct (jsSplitFirst fromJid) = cacheKey acct fromJid from
      cacheKey_split acct fromJid]
    rw [alGet_alSet_self]
    show (if now' - now > CACHE_TTL_MS then none
          else some (parseDeviceListEvent payload)) = some (parseDeviceListEvent payload)
    rw [if_neg (by omega)]
  unfold getDeviceListCached
  rw [hget]
  rfl

/-- C6 witness: pushing devices `[42, 43]` over a stale cache makes an
    immediate cache read (1 second later) return exactly `[42, 43]` with
    no fetch, via the amended theorem at concrete inputs. -/
def c6pushPayload : XNode :=
  XNode.elem "list" [("xmlns", NS_OMEMO)]
    [XNode.elem "device" [("id", "42")] [], XNode.elem "device" [("id", "43")] []]

theorem c6_push_cache_witness :
    (parseDeviceListEvent c6pushPayload ≠ [] ∧ 1000 - 0 ≤ CACHE_TTL_MS) ∧
    getDeviceListCached
        (handleDeviceListPepEvent c6cache 0 "acct" "peer@s" NS_OMEMO_DEVICES [c6pushPayload])
        1000 [] "acct" "peer@s" false =
      (parseDeviceListEvent c6pushPayload,
       handleDeviceListPepEvent c6cache 0 "acct" "peer@s" NS_OMEMO_DEVICES [c6pushPayload],
       false) :=
  ⟨⟨by decide, by decide⟩,
   c6_push_cache_amended c6cache 0 1000 [] "acct" "peer@s" c6pushPayload
     (by decide) (by decide)⟩

-- =============================================================================
-- C8: no-empty-session invariant
-- =============================================================================

theorem loadSessions_foldl_pres (Q : String × SessionVal → Prop)
    (l : List (String × String)) :
    ∀ (acc : List (String × SessionVal)),
      (∀ x ∈ acc, Q x) →
      (∀ kv ∈ l, kv.2.length ≠ 0 →
        (jsStartsWithChar kv.2 '\x7b' = true → Q (kv.1, SessionVal.str kv.2)) ∧
        (jsStartsWithChar kv.2 '\x7b' = false → Q (kv.1, SessionVal.buf (b64Decode kv.2)))) →
      ∀ x ∈ l.foldl (fun acc kv =>
          if kv.2.length = 0 then acc
          else if jsStartsWithChar kv.2 '\x7b' then alSet acc kv.1 (SessionVal.str kv.2)
          else alSet acc kv.1 (SessionVal.buf (b64Decode kv.2))) acc, Q x := by
  induction l with
  | nil =>
    intro acc hacc _ x hx
    exact hacc x hx
  | cons kv t ih =>
    intro acc hacc hstep x hx
    rw [List.foldl_cons] at hx
    have hstep' : ∀ kv' ∈ t, kv'.2.length ≠ 0 →
        (jsStartsWithChar kv'.2 '\x7b' = true → Q (kv'.1, SessionVal.str kv'.2)) ∧
        (jsStartsWithChar kv'.2 '\x7b' = false →
          Q (kv'.1, SessionVal.buf (b64Decode kv'.2))) :=
      fun kv' h' => hstep kv' (List.mem_cons_of_mem kv h')
    by_cases h0 : kv.2.length = 0
    · rw [if_pos h0] at hx
      exact ih acc hacc hstep' x hx
    · rw [if_neg h0] at hx
      by_cases hb : jsStartsWithChar kv.2 '\x7b'
      · rw [if_pos hb] at hx
        refine ih _ ?_ hstep' x hx
        intro y hy
        rcases mem_alSet _ _ _ _ hy with hy' | rfl
        · exact hacc y hy'
        · exact (hstep kv (List.mem_cons_self kv t) h0).1 hb
      · rw [if_neg hb] at hx
        refine ih _ ?_ hstep' x hx
        intro y hy
        rcases mem_alSet _ _ _ _ hy with hy' | rfl
        · exact hacc y hy'
        · exact (hstep kv (List.mem_cons_self kv t) h0).2 (Bool.not_eq_true _ ▸ eq_false_of_ne_true hb)

/-- C8 counterexample: restoring a snapshot whose (non-empty) stored
    session string is "=" — which base64-decodes to ZERO bytes — leaves an
    EMPTY buffer entry in the session map, contradicting the claim that
    every entry after a restore is non-empty. -/
theorem c8_session_nonempty_counterexample :
    loadSessionsFromData [("alice@s.1", "=")] = [("alice@s.1", SessionVal.buf [])] ∧
    sessionValEmpty (SessionVal.buf []) = true :=
  ⟨rfl, rfl⟩

/-- C8 (amended): store-session with an empty, null, or structurally
    invalid record is a silent no-op leaving the session map unchanged and
    nothing persisted; store-session only ever inserts non-empty values, so
    it preserves the all-entries-non-empty invariant; restore drops session
    records whose STORED STRING is zero-length (so every restored entry
    originates from a non-empty stored string, and every restored
    JSON-string entry is non-empty) — but a restored BUFFER entry may be
    empty when a non-empty stored string base64-decodes to zero bytes. -/
theorem c8_session_nonempty_amended :
    (∀ (sessions : List (String × SessionVal)) (id : String) (r : JsSessionRecord),
      sessionRecordRejected r = true → storeSession sessions id r = (sessions, false)) ∧
    (∀ (sessions : List (String × SessionVal)) (id : String) (r : JsSessionRecord),
      (∀ kv ∈ sessions, sessionValEmpty kv.2 = false) →
      ∀ kv ∈ (storeSession sessions id r).1, sessionValEmpty kv.2 = false) ∧
    (∀ (entries : List (String × String)) (k s : String),
      (k, SessionVal.str s) ∈ loadSessionsFromData entries → s.length ≠ 0) ∧
    (∀ (entries : List (String × String)) (x : String × SessionVal),
      x ∈ loadSessionsFromData entries → ∃ v, (x.1, v) ∈ entries ∧ v.length ≠ 0) := by
  refine ⟨?_, ?_, ?_, ?_⟩
  · intro sessions id r hr
    cases r with
    | nullRec => rfl
    | strRec s boxed =>
        simp only [sessionRecordRejected, beq_iff_eq] at hr
        simp [storeSession, hr]
    | bufRec b =>
        simp only [sessionRecordRejected, beq_iff_eq] at hr
        simp [storeSession, hr]
    | viewRec b =>
        simp only [sessionRecordRejected, beq_iff_eq] at hr
        simp [storeSession, hr]
    | duckRec b =>
        simp only [sessionRecordRejected, beq_iff_eq] at hr
        simp [storeSession, hr]
    | otherRec => rfl
  · intro sessions id r hinv kv hkv
    cases r with
    | nullRec => exact hinv kv hkv
    | strRec s boxed =>
        by_cases h0 : s.length = 0
        · rw [show storeSession sessions id (JsSessionRecord.strRec s boxed) =
              (sessions, false) from by simp [storeSession, h0]] at hkv
          exact hinv kv hkv
        · rw [show storeSession sessions id (JsSessionRecord.strRec s boxed) =
              (alSet sessions id (SessionVal.str s), true) from by
            simp [storeSession, h0]] at hkv
          rcases mem_alSet _ _ _ _ hkv with h | rfl
          · exact hinv kv h
          · simp [sessionValEmpty, h0]
    | bufRec b =>
        by_cases h0 : b.length = 0
        · rw [show storeSession sessions id (JsSessionRecord.bufRec b) =
              (sessions, false) from by simp [storeSession, h0]] at hkv
          exact hinv kv hkv
        · rw [show storeSession sessions id (JsSessionRecord.bufRec b) =
              (alSet sessions id (SessionVal.buf b), true) from by
            simp [storeSession, h0]] at hkv
          rcases mem_alSet _ _ _ _ hkv with h | rfl
          · exact hinv kv h
          · simp [sessionValEmpty, h0]
    | viewRec b =>
        by_cases h0 : b.length = 0
        · rw [show storeSession sessions id (JsSessionRecord.viewRec b) =
              (sessions, false) from by simp [storeSession, h0]] at hkv
          exact hinv kv hkv
        · rw [show storeSession sessions id (JsSessionRecord.viewRec b) =
              (alSet sessions id (SessionVal.buf b), true) from by
            simp [storeSession, h0]] at hkv
          rcases mem_alSet _ _ _ _ hkv with h | rfl
          · exact hinv kv h
          · simp [sessionValEmpty, h0]
    | duckRec b =>
        by_cases h0 : b.length = 0
        · rw [show storeSession sessions id (JsSessionRecord.duckRec b) =
              (sessions, false) from by simp [storeSession, h0]] at hkv
          exact hinv kv hkv
        · rw [show storeSession sessions id (JsSessionRecord.duckRec b) =
              (alSet sessions id (SessionVal.buf b), true) from by
            simp [storeSession, h0]] at hkv
          rcases mem_alSet _ _ _ _ hkv with h | rfl
          · exact hinv kv h
          · simp [sessionValEmpty, h0]
    | otherRec => exact hinv kv hkv
  · intro entries k s hmem
    have := loadSessions_foldl_pres
      (fun x => ∀ s', x.2 = SessionVal.str s' → s'.length ≠ 0) entries []
      (by intro x hx; cases hx)
      (by
        intro kv hkv h0
        constructor
        · intro _ s' hs'
          cases hs'
          exact h0
        · intro _ s' hs'
          cases hs')
      (k, SessionVal.str s) hmem
    exact this s rfl
  · intro entries x hmem
    exact loadSessions_foldl_pres
      (fun x => ∃ v, (x.1, v) ∈ entries ∧ v.length ≠ 0) entries []
      (by intro x hx; cases hx)
      (by
        intro kv hkv h0
        exact ⟨fun _ => ⟨kv.2, hkv, h0⟩, fun _ => ⟨kv.2, hkv, h0⟩⟩)
      x hmem

/-- C8 witness: a `null` store-session record is rejected and leaves an
    empty session map unchanged, via the amended theorem. -/
theorem c8_session_nonempty_witness :
    sessionRecordRejected JsSessionRecord.nullRec = true ∧
    storeSession [] "peer@s.1" JsSessionRecord.nullRec = ([], false) :=
  ⟨rfl, c8_session_nonempty_amended.1 [] "peer@s.1" JsSessionRecord.nullRec rfl⟩

-- =============================================================================
-- C10: lenient wire parsing
-- =============================================================================

theorem devloop_eq (els : List XNode) :
    ∀ acc, els.foldl (fun acc el =>
        match jsParseInt (el.attr "id") with
        | some id => acc ++ [(⟨id, el.attr "label"⟩ : OmemoDevice)]
        | none => acc) acc
      = acc ++ els.filterMap (fun el => (jsParseInt (el.attr "id")).map
          (fun id => (⟨id, el.attr "label"⟩ : OmemoDevice))) := by
  induction els with
  | nil => simp
  | cons e t ih =>
    intro acc
    rw [List.foldl_cons, List.filterMap_cons]
    cases h : jsParseInt (e.attr "id") with
    | none => simp [h, ih]
    | some id => simp [h, ih]

theorem collectPreKeys_loop_eq (els : List XNode) (a : String) :
    ∀ acc, els.foldl (fun acc pk =>
        match jsParseInt (pk.attr a) with
        | some pkId =>
            let pkText := pk.firstText
            if pkText = "" then acc else acc ++ [(⟨pkId, b64Decode pkText⟩ : ParsedPreKey)]
        | none => acc) acc
      = acc ++ els.filterMap (fun pk =>
          (jsParseInt (pk.attr a)).bind (fun pkId =>
            if pk.firstText = "" then none
            else some (⟨pkId, b64Decode pk.firstText⟩ : ParsedPreKey))) := by
  induction els with
  | nil => simp
  | cons e t ih =>
    intro acc
    rw [List.foldl_cons, List.filterMap_cons]
    cases h : jsParseInt (e.attr a) with
    | none => simp [h, ih]
    | some pkId =>
      by_cases ht : e.firstText = ""
      · simp [h, ht, ih]
      · simp [h, ht, ih]

theorem collectPreKeys_eq (els : List XNode) (a : String) :
    collectPreKeys els a = els.filterMap (fun pk =>
      (jsParseInt (pk.attr a)).bind (fun pkId =>
        if pk.firstText = "" then none
        else some (⟨pkId, b64Decode pk.firstText⟩ : ParsedPreKey))) := by
  unfold collectPreKeys
  rw [collectPreKeys_loop_eq]
  simp

theorem mem_collectPreKeys (els : List XNode) (a : String) (pk : ParsedPreKey) :
    pk ∈ collectPreKeys els a ↔
      ∃ el ∈ els, jsParseInt (el.attr a) = some pk.id ∧ el.firstText ≠ "" ∧
        pk.publicKey = b64Decode el.firstText := by
  rw [collectPreKeys_eq, List.mem_filterMap]
  constructor
  · rintro ⟨el, hel, hf⟩
    rcases Option.bind_eq_some.mp hf with ⟨pid, hpid, hif⟩
    by_cases ht : el.firstText = ""
    · rw [if_pos ht] at hif
      cases hif
    · rw [if_neg ht] at hif
      cases pk
      cases hif
      exact ⟨el, hel, hpid, ht, rfl⟩
  · rintro ⟨el, hel, hpid, ht, hpub⟩
    refine ⟨el, hel, ?_⟩
    rw [hpid]
    simp only [Option.bind_eq_some, Option.some.injEq]
    refine ⟨pk.id, rfl, ?_⟩
    rw [if_neg ht]
    cases pk
    simp only at hpub
    simp [hpub]

/-- C10: lenient wire parsing.
    (1) device-list parsing keeps exactly the `device` children whose `id`
    attribute parses as an integer (and only under a `list`/`devices`
    payload), silently dropping the rest;
    (2) bundle parsing returns `none` when the identity key is missing;
    (3) `none` when both signed-pre-key element names are missing;
    (4) `none` when the legacy signed-pre-key is present but its signature
    is missing or empty;
    (5) any successfully parsed bundle has an identity key, a `prekeys`
    container, and exactly the valid one-time pre-keys collected from it;
    (6) a collected pre-key is exactly one with an integer id attribute and
    a non-empty body. -/
theorem c10_lenient_parsing :
    (∀ (p : XNode) (d : OmemoDevice),
      d ∈ parseDeviceListEvent p ↔
        ((p.nodeName = "list" ∨ p.nodeName = "devices") ∧
         ∃ el ∈ p.getChildren "device",
           jsParseInt (el.attr "id") = some d.id ∧ el.attr "label" = d.label)) ∧
    (∀ e : XNode,
      jsTruthyText (jsOrText (e.getChildText "identityKey") (e.getChildText "ik")) = none →
      parseBundle e = none) ∧
    (∀ e : XNode, e.getChild "signedPreKeyPublic" = none → e.getChild "spk" = none →
      parseBundle e = none) ∧
    (∀ (e spk : XNode), e.getChild "signedPreKeyPublic" = some spk →
      jsTruthyText (e.getChildText "signedPreKeySignature") = none →
      parseBundle e = none) ∧
    (∀ (e : XNode) (b : ParsedBundle), parseBundle e = some b →
      (∃ ikt, jsTruthyText (jsOrText (e.getChildText "identityKey")
          (e.getChildText "ik")) = some ikt ∧ b.identityKey = b64Decode ikt) ∧
      (∃ pkc, e.getChild "prekeys" = some pkc ∧
        b.preKeys = collectPreKeys (bundlePreKeyEls pkc).1 (bundlePreKeyEls pkc).2)) ∧
    (∀ (els : List XNode) (a : String) (pk : ParsedPreKey),
      pk ∈ collectPreKeys els a ↔
        ∃ el ∈ els, jsParseInt (el.attr a) = some pk.id ∧ el.firstText ≠ "" ∧
          pk.publicKey = b64Decode el.firstText) := by
  refine ⟨?_, ?_, ?_, ?_, ?_, mem_collectPreKeys⟩
  · intro p d
    unfold parseDeviceListEvent
    by_cases hname : (p.nodeName == "list" || p.nodeName == "devices") = true
    · rw [if_neg (by simp [hname])]
      rw [devloop_eq, List.nil_append, List.mem_filterMap]
      constructor
      · rintro ⟨el, hel, hf⟩
        rcases Option.map_eq_some'.mp hf with ⟨id, hid, hd⟩
        cases d
        cases hd
        exact ⟨by simpa using hname, el, hel, hid, rfl⟩
      · rintro ⟨_, el, hel, hid, hlab⟩
        refine ⟨el, hel, ?_⟩
        rw [hid]
        cases d
        simp only at hlab
        simp [hlab]
    · rw [if_pos (by simpa using hname)]
      simp only [List.not_mem_nil, false_iff, not_and]
      intro hn
      exact absurd (by simpa using hn) hname
  · intro e hik
    unfold parseBundle
    by_cases hname : (e.nodeName != "bundle") = true
    · rw [if_pos hname]
    · rw [if_neg hname, hik]
  · intro e h1 h2
    unfold parseBundle
    by_cases hname : (e.nodeName != "bundle") = true
    · rw [if_pos hname]
    · rw [if_neg hname]
      cases hic : jsTruthyText (jsOrText (e.getChildText "identityKey")
          (e.getChildText "ik")) with
      | none => rfl
      | some ikt =>
        rw [show bundleSpkSel e = (none, jsTruthyText (e.getChildText "spks"), "id") from by
          unfold bundleSpkSel
          rw [h1, h2]]
  · intro e spk h1 h2
    unfold parseBundle
    by_cases hname : (e.nodeName != "bundle") = true
    · rw [if_pos hname]
    · rw [if_neg hname]
      cases hic : jsTruthyText (jsOrText (e.getChildText "identityKey")
          (e.getChildText "ik")) with
      | none => rfl
      | some ikt =>
        rw [show bundleSpkSel e = (some spk,
            jsTruthyText (e.getChildText "signedPreKeySignature"), "signedPreKeyId") from by
          unfold bundleSpkSel
          rw [h1], h2]
  · intro e b hb
    unfold parseBundle at hb
    by_cases hname : (e.nodeName != "bundle") = true
    · rw [if_pos hname] at hb
      cases hb
    · rw [if_neg hname] at hb
      cases hic : jsTruthyText (jsOrText (e.getChildText "identityKey")
          (e.getChildText "ik")) with
      | none =>
        rw [hic] at hb
        cases hb
      | some ikt =>
        rw [hic] at hb
        cases hsel : bundleSpkSel e with
        | mk spk? rest =>
          cases rest with
          | mk spks? attr =>
            rw [hsel] at hb
            cases spk? with
            | none => cases hb
            | some spk =>
              cases spks? with
              | none => cases hb
              | some spksText =>
                replace hb : (match jsParseInt (spk.attr attr) with
                    | none => none
                    | some spkId =>
                      if spk.firstText = "" then none
                      else
                        match e.getChild "prekeys" with
                        | none => none
                        | some prekeysElement =>
                          some (⟨b64Decode ikt,
                            ⟨spkId, b64Decode spk.firstText, b64Decode spksText⟩,
                            collectPreKeys (bundlePreKeyEls prekeysElement).1
                              (bundlePreKeyEls prekeysElement).2⟩ : ParsedBundle)) =
                    some b := hb
                cases hpid : jsParseInt (spk.attr attr) with
                | none =>
                  rw [hpid] at hb
                  cases hb
                | some spkId =>
                  rw [hpid] at hb
                  replace hb : (if spk.firstText = "" then none
                      else
                        match e.getChild "prekeys" with
                        | none => none
                        | some prekeysElement =>
                          some (⟨b64Decode ikt,
                            ⟨spkId, b64Decode spk.firstText, b64Decode spksText⟩,
                            collectPreKeys (bundlePreKeyEls prekeysElement).1
                              (bundlePreKeyEls prekeysElement).2⟩ : ParsedBundle)) =
                      some b := hb
                  by_cases htxt : spk.firstText = ""
                  · rw [if_pos htxt] at hb
                    cases hb
                  · rw [if_neg htxt] at hb
                    cases hpkc : e.getChild "prekeys" with
                    | none =>
                      rw [hpkc] at hb
                      cases hb
                    | some pkc =>
                      rw [hpkc] at hb
                      cases hb
                      exact ⟨⟨ikt, rfl, rfl⟩, ⟨pkc, rfl, rfl⟩⟩

/-- C10 witness: a `bundle` element without an identity key parses to
    `none`, via the claim theorem at a concrete element. -/
theorem c10_lenient_parsing_witness :
    jsTruthyText (jsOrText ((XNode.elem "bundle" [] []).getChildText "identityKey")
      ((XNode.elem "bundle" [] []).getChildText "ik")) = none ∧
    parseBundle (XNode.elem "bundle" [] []) = none :=
  ⟨rfl, c10_lenient_parsing.2.1 (XNode.elem "bundle" [] []) rfl⟩

-- =============================================================================
-- C2 / C3: fan-out rid sets
-- =============================================================================

theorem mkKeyElem_nodeName (did : Int) (r : EncKeyResult) :
    (mkKeyElem did r).nodeName = "key" := rfl

theorem mkKeyElem_rid (did : Int) (r : EncKeyResult) :
    (mkKeyElem did r).attr "rid" = some (toString did) := by
  unfold mkKeyElem XNode.attr lookupAttr
  cases r.isPreKey <;> rfl

theorem ridAttrs_build (did : Int) (ks : List XNode) (iv ct : List Nat)
    (hk : ∀ k ∈ ks, k.nodeName = "key") :
    ridAttrs (buildEncryptedElement did ks iv ct) =
      ks.filterMap (fun k => k.attr "rid") := by
  unfold ridAttrs buildEncryptedElement
  rw [show (XNode.elem "encrypted" [("xmlns", NS_OMEMO)]
      [XNode.elem "header" [("sid", toString did)]
         (ks ++ [XNode.elem "iv" [] [XNode.text (b64Encode iv)]]),
       XNode.elem "payload" [] [XNode.text (b64Encode ct)]]).getChild "header" =
      some (XNode.elem "header" [("sid", toString did)]
        (ks ++ [XNode.elem "iv" [] [XNode.text (b64Encode iv)]])) from rfl]
  show ((XNode.elem "header" [("sid", toString did)]
      (ks ++ [XNode.elem "iv" [] [XNode.text (b64Encode iv)]])).getChildren "key").filterMap
      (fun k => k.attr "rid") = ks.filterMap (fun k => k.attr "rid")
  unfold XNode.getChildren
  show ((ks ++ [XNode.elem "iv" [] [XNode.text (b64Encode iv)]]).filter _).filterMap _ = _
  rw [List.filter_append]
  rw [List.filter_eq_self.mpr ?hall]
  case hall =>
    intro k hks
    have h := hk k hks
    cases k with
    | elem m a c =>
      simp only [XNode.nodeName] at h
      simp [XNode.isTextNode, XNode.nodeName, h]
    | text s => simp [XNode.nodeName] at h
  rw [show List.filter (fun c => !c.isTextNode && c.nodeName == "key")
      [XNode.elem "iv" [] [XNode.text (b64Encode iv)]] = [] from rfl]
  rw [List.append_nil]

theorem keyElems_all_named {β : Type} (L : List β) (did : β → Int)
    (f : β → Option EncKeyResult) :
    ∀ k ∈ L.filterMap (fun d => (f d).map (mkKeyElem (did d))), k.nodeName = "key" := by
  intro k hk
  rcases List.mem_filterMap.mp hk with ⟨d, _, hf⟩
  rcases Option.map_eq_some'.mp hf with ⟨r, _, hr⟩
  rw [← hr]
  rfl

theorem rids_of_keyElems {β : Type} (L : List β) (did : β → Int)
    (f : β → Option EncKeyResult) :
    (L.filterMap (fun d => (f d).map (mkKeyElem (did d)))).filterMap
        (fun k => k.attr "rid")
      = L.filterMap (fun d => (f d).map (fun _ => toString (did d))) := by
  induction L with
  | nil => rfl
  | cons d t ih =>
    rw [List.filterMap_cons, List.filterMap_cons]
    cases h : f d with
    | none => simpa [h] using ih
    | some r =>
      simp only [h, Option.map_some']
      rw [List.filterMap_cons]
      rw [mkKeyElem_rid]
      rw [ih]

theorem filterMap_total {β : Type} (L : List β) (f : β → Option EncKeyResult)
    (g : β → String) (h : ∀ d ∈ L, (f d).isSome) :
    L.filterMap (fun d => (f d).map (fun _ => g d)) = L.map g := by
  induction L with
  | nil => rfl
  | cons d t ih =>
    rw [List.filterMap_cons, List.map_cons]
    rcases Option.isSome_iff_exists.mp (h d (List.mem_cons_self d t)) with ⟨r, hr⟩
    rw [hr]
    simp only [Option.map_some']
    rw [ih (fun x hx => h x (List.mem_cons_of_mem d hx))]

/-- C3 (amended): for every successful encrypt-direct invocation, the rid
    attributes are exactly the recipient devices and OTHER own devices for
    which the per-device encryption succeeded; the own-device contribution
    is filtered to exclude the current device id; and when every per-device
    encryption succeeds, the rid set equals the full recipient device list
    plus the full other-own-device list. -/
theorem c3_direct_fanout_amended (env : EncEnv) (acct rjid pt : String) (e : XNode)
    (h : encryptOmemoMessage env acct rjid pt = some e) :
    (ridAttrs e =
      (env.deviceList rjid).filterMap (fun d =>
        (encryptKeyForDevice env acct rjid d.id).map (fun _ => toString d.id))
      ++ ((env.deviceList "").filter (fun d => d.id != env.ourDeviceId)).filterMap (fun d =>
        (encryptKeyForDevice env acct "" d.id).map (fun _ => toString d.id))) ∧
    (∀ d ∈ (env.deviceList "").filter (fun d => d.id != env.ourDeviceId),
      d.id ≠ env.ourDeviceId) ∧
    ((∀ d ∈ env.deviceList rjid, (encryptKeyForDevice env acct rjid d.id).isSome) →
     (∀ d ∈ (env.deviceList "").filter (fun d => d.id != env.ourDeviceId),
        (encryptKeyForDevice env acct "" d.id).isSome) →
     ridAttrs e = (env.deviceList rjid).map (fun d => toString d.id)
       ++ ((env.deviceList "").filter (fun d => d.id != env.ourDeviceId)).map
            (fun d => toString d.id)) := by
  simp only [encryptOmemoMessage] at h
  split_ifs at h with h1 h2 h3
  rw [Option.some.injEq] at h
  subst h
  have hnames : ∀ k ∈ (env.deviceList rjid).filterMap (fun d =>
        (encryptKeyForDevice env acct rjid d.id).map (mkKeyElem d.id))
      ++ ((env.deviceList "").filter (fun d => d.id != env.ourDeviceId)).filterMap (fun d =>
        (encryptKeyForDevice env acct "" d.id).map (mkKeyElem d.id)),
      k.nodeName = "key" := by
    intro k hks
    rcases List.mem_append.mp hks with hks | hks
    · exact keyElems_all_named (env.deviceList rjid) (fun d => d.id)
        (fun d => encryptKeyForDevice env acct rjid d.id) k hks
    · exact keyElems_all_named ((env.deviceList "").filter (fun d => d.id != env.ourDeviceId))
        (fun d => d.id) (fun d => encryptKeyForDevice env acct "" d.id) k hks
  have hrid : ridAttrs (buildEncryptedElement env.ourDeviceId
      ((env.deviceList rjid).filterMap (fun d =>
        (encryptKeyForDevice env acct rjid d.id).map (mkKeyElem d.id))
      ++ ((env.deviceList "").filter (fun d => d.id != env.ourDeviceId)).filterMap (fun d =>
        (encryptKeyForDevice env acct "" d.id).map (mkKeyElem d.id)))
      env.ivBytes (env.payloadEnc pt).1) =
      (env.deviceList rjid).filterMap (fun d =>
        (encryptKeyForDevice env acct rjid d.id).map (fun _ => toString d.id))
      ++ ((env.deviceList "").filter (fun d => d.id != env.ourDeviceId)).filterMap (fun d =>
        (encryptKeyForDevice env acct "" d.id).map (fun _ => toString d.id)) := by
    rw [ridAttrs_build _ _ _ _ hnames, List.filterMap_append]
    rw [rids_of_keyElems (env.deviceList rjid) (fun d => d.id)
      (fun d => encryptKeyForDevice env acct rjid d.id)]
    rw [rids_of_keyElems ((env.deviceList "").filter (fun d => d.id != env.ourDeviceId))
      (fun d => d.id) (fun d => encryptKeyForDevice env acct "" d.id)]
  refine ⟨hrid, ?_, ?_⟩
  · intro d hd
    have := (List.mem_filter.mp hd).2
    simpa using this
  · intro hall1 hall2
    rw [hrid]
    rw [filterMap_total _ _ _ hall1, filterMap_total _ _ _ hall2]

/-- C3 counterexample environment: recipient `u1@s` has devices 42 and 43
    but encryption succeeds only for 42 (bundle unavailable for 43); own
    devices are 100 (current) and 101, with 101 succeeding. -/
def c3env : EncEnv where
  storePresent := true
  ourDeviceId := 100
  selfJid := "me@s"
  deviceList := fun jid =>
    if jid = "" then [⟨100, none⟩, ⟨101, none⟩]
    else if jid = "u1@s" then [⟨42, none⟩, ⟨43, none⟩] else []
  encKey := fun jid did =>
    if jid = "u1@s" && did == 42 then some ⟨[1], true⟩
    else if jid = "me@s" && did == 101 then some ⟨[2], false⟩
    else none
  aesKeyBytes := []
  ivBytes := []
  payloadEnc := fun _ => ([], [])
  roomOmemoCapable := fun _ => false
  occupantJids := fun _ => none

/-- C3 counterexample: the invocation succeeds, device 43 is in the
    recipient list, yet no rid 43 appears — so the rid set does NOT equal
    recipient devices plus other own devices as the claim states. -/
theorem c3_direct_fanout_counterexample :
    (encryptOmemoMessage c3env "acct" "u1@s" "hi").isSome = true ∧
    (⟨43, none⟩ : OmemoDevice) ∈ c3env.deviceList "u1@s" ∧
    ridsOfResult (encryptOmemoMessage c3env "acct" "u1@s" "hi") = ["42", "101"] ∧
    "43" ∉ ridsOfResult (encryptOmemoMessage c3env "acct" "u1@s" "hi") := by
  refine ⟨rfl, by decide, rfl, by decide⟩

/-- C3 witness environment: every per-device encryption succeeds. -/
def c3allEnv : EncEnv where
  storePresent := true
  ourDeviceId := 100
  selfJid := "me@s"
  deviceList := fun jid =>
    if jid = "" then [⟨100, none⟩, ⟨101, none⟩]
    else if jid = "u1@s" then [⟨42, none⟩] else []
  encKey := fun _ _ => some ⟨[1], false⟩
  aesKeyBytes := []
  ivBytes := []
  payloadEnc := fun _ => ([], [])
  roomOmemoCapable := fun _ => false
  occupantJids := fun _ => none

/-- C3 witness: with all encryptions succeeding, the rid set is exactly
    recipient devices plus other own devices (42 and 101, not 100), via the
    amended theorem at a concrete environment. -/
theorem c3_direct_fanout_witness :
    ridsOfResult (encryptOmemoMessage c3allEnv "acct" "u1@s" "x") =
      (c3allEnv.deviceList "u1@s").map (fun d => toString d.id)
      ++ ((c3allEnv.deviceList "").filter (fun d => d.id != c3allEnv.ourDeviceId)).map
           (fun d => toString d.id) := by
  obtain ⟨e, he⟩ : ∃ e, encryptOmemoMessage c3allEnv "acct" "u1@s" "x" = some e := ⟨_, rfl⟩
  rw [show ridsOfResult (encryptOmemoMessage c3allEnv "acct" "u1@s" "x") = ridAttrs e from by
    rw [he]
    rfl]
  exact (c3_direct_fanout_amended c3allEnv "acct" "u1@s" "x" e he).2.2
    (by decide) (by decide)

/-- C2 (amended): for every successful encrypt-room invocation, ALL devices
    of the fetched own device list (the current device NOT excluded) are in
    the attempted recipient set: every own device whose per-device
    encryption succeeds contributes its rid; in particular the local device
    id appears among the rid attributes whenever it is in the fetched own
    device list and its key encryption succeeds. -/
theorem c2_room_fanout_amended (env : EncEnv) (acct room pt : String) (e : XNode)
    (h : encryptMucOmemoMessage env acct room pt = some e) :
    (∀ d ∈ env.deviceList "", (encryptKeyForDevice env acct "" d.id).isSome →
      toString d.id ∈ ridAttrs e) ∧
    (env.ourDeviceId ∈ (env.deviceList "").map (fun d => d.id) →
     (encryptKeyForDevice env acct "" env.ourDeviceId).isSome →
     toString env.ourDeviceId ∈ ridAttrs e) := by
  simp only [encryptMucOmemoMessage] at h
  split_ifs at h with h1 h2
  split at h
  · exact Option.noConfusion h
  · rename_i jids hocc
    split_ifs at h with h3 h4 h5
    rw [Option.some.injEq] at h
    subst h
    have hnames : ∀ k ∈ ((jids.map (fun jid =>
          (env.deviceList jid).map (fun d => (jid, d.id)))).flatten).filterMap (fun p =>
          (encryptKeyForDevice env acct p.1 p.2).map (mkKeyElem p.2))
        ++ (env.deviceList "").filterMap (fun d =>
          (encryptKeyForDevice env acct "" d.id).map (mkKeyElem d.id)),
        k.nodeName = "key" := by
      intro k hks
      rcases List.mem_append.mp hks with hks | hks
      · exact keyElems_all_named ((jids.map (fun jid =>
            (env.deviceList jid).map (fun d => (jid, d.id)))).flatten) (fun p => p.2)
          (fun p => encryptKeyForDevice env acct p.1 p.2) k hks
      · exact keyElems_all_named (env.deviceList "") (fun d => d.id)
          (fun d => encryptKeyForDevice env acct "" d.id) k hks
    have hrid : ridAttrs (buildEncryptedElement env.ourDeviceId
        (((jids.map (fun jid =>
          (env.deviceList jid).map (fun d => (jid, d.id)))).flatten).filterMap (fun p =>
          (encryptKeyForDevice env acct p.1 p.2).map (mkKeyElem p.2))
        ++ (env.deviceList "").filterMap (fun d =>
          (encryptKeyForDevice env acct "" d.id).map (mkKeyElem d.id)))
        env.ivBytes (env.payloadEnc pt).1) =
        ((jids.map (fun jid =>
          (env.deviceList jid).map (fun d => (jid, d.id)))).flatten).filterMap (fun p =>
          (encryptKeyForDevice env acct p.1 p.2).map (fun _ => toString p.2))
        ++ (env.deviceList "").filterMap (fun d =>
          (encryptKeyForDevice env acct "" d.id).map (fun _ => toString d.id)) := by
      rw [ridAttrs_build _ _ _ _ hnames, List.filterMap_append]
      rw [rids_of_keyElems ((jids.map (fun jid =>
        (env.deviceList jid).map (fun d => (jid, d.id)))).flatten) (fun p => p.2)
        (fun p => encryptKeyForDevice env acct p.1 p.2)]
      rw [rids_of_keyElems (env.deviceList "") (fun d => d.id)
        (fun d => encryptKeyForDevice env acct "" d.id)]
    have hown : ∀ d ∈ env.deviceList "", (encryptKeyForDevice env acct "" d.id).isSome →
        toString d.id ∈ ridAttrs (buildEncryptedElement env.ourDeviceId
          (((jids.map (fun jid =>
            (env.deviceList jid).map (fun d => (jid, d.id)))).flatten).filterMap (fun p =>
            (encryptKeyForDevice env acct p.1 p.2).map (mkKeyElem p.2))
          ++ (env.deviceList "").filterMap (fun d =>
            (encryptKeyForDevice env acct "" d.id).map (mkKeyElem d.id)))
          env.ivBytes (env.payloadEnc pt).1) := by
      intro d hd hsome
      rw [hrid]
      refine List.mem_append_right _ ?_
      refine List.mem_filterMap.mpr ⟨d, hd, ?_⟩
      rcases Option.isSome_iff_exists.mp hsome with ⟨r, hr⟩
      rw [hr]
      rfl
    refine ⟨hown, ?_⟩
    intro hmem hsome
    rcases List.mem_map.mp hmem with ⟨d, hd, hid⟩
    have := hown d hd (by rw [hid]; exact hsome)
    rwa [hid] at this

/-- C2 counterexample environment: one occupant with device 42 (its
    encryption succeeds); the fetched own device list is exactly the
    current device 100, whose bundle is unavailable so its per-device
    encryption fails and is silently skipped. -/
def c2env : EncEnv where
  storePresent := true
  ourDeviceId := 100
  selfJid := "me@s"
  deviceList := fun jid =>
    if jid = "" then [⟨100, none⟩]
    else if jid = "u1@s" then [⟨42, none⟩] else []
  encKey := fun jid did => if jid = "u1@s" && did == 42 then some ⟨[1], true⟩ else none
  aesKeyBytes := []
  ivBytes := []
  payloadEnc := fun _ => ([], [])
  roomOmemoCapable := fun _ => true
  occupantJids := fun r => if r = "room@conf" then some ["u1@s"] else none

/-- C2 counterexample: the encrypt-room invocation succeeds (one key for
    device 42), yet the rid attributes do NOT include the local device id
    100 — the own-device encryption failure was skipped silently. -/
theorem c2_room_fanout_counterexample :
    (encryptMucOmemoMessage c2env "acct" "room@conf" "hi").isSome = true ∧
    c2env.ourDeviceId ∈ (c2env.deviceList "").map (fun d => d.id) ∧
    ridsOfResult (encryptMucOmemoMessage c2env "acct" "room@conf" "hi") = ["42"] ∧
    toString c2env.ourDeviceId ∉
      ridsOfResult (encryptMucOmemoMessage c2env "acct" "room@conf" "hi") := by
  refine ⟨rfl, by decide, rfl, by decide⟩

/-- C2 witness environment: every per-device encryption succeeds. -/
def c2allEnv : EncEnv where
  storePresent := true
  ourDeviceId := 100
  selfJid := "me@s"
  deviceList := fun jid =>
    if jid = "" then [⟨100, none⟩, ⟨101, none⟩]
    else if jid = "u1@s" then [⟨42, none⟩] else []
  encKey := fun _ _ => some ⟨[1], false⟩
  aesKeyBytes := []
  ivBytes := []
  payloadEnc := fun _ => ([], [])
  roomOmemoCapable := fun _ => true
  occupantJids := fun r => if r = "room@conf" then some ["u1@s"] else none

/-- C2 witness: with the own-device encryption succeeding, the local device
    id 100 does appear among the rids, via the amended theorem at a
    concrete environment. -/
theorem c2_room_fanout_witness :
    toString c2allEnv.ourDeviceId ∈
      ridsOfResult (encryptMucOmemoMessage c2allEnv "acct" "room@conf" "x") := by
  obtain ⟨e, he⟩ : ∃ e, encryptMucOmemoMessage c2allEnv "acct" "room@conf" "x" = some e :=
    ⟨_, rfl⟩
  rw [show ridsOfResult (encryptMucOmemoMessage c2allEnv "acct" "room@conf" "x") =
      ridAttrs e from by
    rw [he]
    rfl]
  exact (c2_room_fanout_amended c2allEnv "acct" "room@conf" "x" e he).2
    (by decide) (by decide)

-- =============================================================================
-- C9: inbound decryption totality
-- =============================================================================

/-- C9: `decryptOmemoMessage` never propagates an exception — every path on
    which the translated `try` body throws yields `null` through the
    enclosing catch (clause 1); a stanza carrying no key element addressed
    to our device uniformly yields `null` (not-for-us, clause 2); and a
    successfully key-decrypted message without a payload (key transport)
    also uniformly yields `null` (clause 3). -/
theorem c9_decrypt_totality :
    (∀ (env : DecEnv) (st enc : XNode) (ns : String) (z : Unit),
      getOmemoEncrypted st = some (enc, ns) →
      decryptOmemoBody env st enc ns = Except.error z →
      decryptOmemoMessage env st = none) ∧
    (∀ (env : DecEnv) (st enc : XNode) (ns : String) (hdr : XNode) (sid : Int)
        (ivt : String),
      env.storePresent = true →
      getOmemoEncrypted st = some (enc, ns) →
      enc.getChild "header" = some hdr →
      jsParseInt (hdr.attr "sid") = some sid →
      jsTruthyText (hdr.getChildText "iv") = some ivt →
      findOurKeyElement hdr (ns == NS_OMEMO_V2) env.ourDeviceId = none →
      decryptOmemoMessage env st = none) ∧
    (∀ (env : DecEnv) (st enc : XNode) (ns : String) (hdr keyEl : XNode) (sid : Int)
        (ivt sj : String) (mk : List Nat),
      env.storePresent = true →
      getOmemoEncrypted st = some (enc, ns) →
      enc.getChild "header" = some hdr →
      jsParseInt (hdr.attr "sid") = some sid →
      jsTruthyText (hdr.getChildText "iv") = some ivt →
      findOurKeyElement hdr (ns == NS_OMEMO_V2) env.ourDeviceId = some keyEl →
      computeSenderJid env (st.attr "type") (st.attr "from") = some (some sj) →
      (decryptMessageKey env sj sid (b64Decode keyEl.firstText)
        (isPreKeyElement keyEl ns)).1 = some mk →
      jsTruthyText (enc.getChildText "payload") = none →
      decryptOmemoMessage env st = none) := by
  refine ⟨?_, ?_, ?_⟩
  · intro env st enc ns z hEnc hbody
    cases hsp : env.storePresent
    · simp [decryptOmemoMessage, hsp]
    · simp [decryptOmemoMessage, hsp, hEnc, hbody]
  · intro env st enc ns hdr sid ivt hsp hEnc hhdr hsid hiv hfind
    have hbody : decryptOmemoBody env st enc ns = Except.ok none := by
      simp [decryptOmemoBody, hhdr, hsid, hiv, hfind]
    simp [decryptOmemoMessage, hsp, hEnc, hbody]
  · intro env st enc ns hdr keyEl sid ivt sj mk hsp hEnc hhdr hsid hiv hfind hsj hmk hpay
    have hbody : decryptOmemoBody env st enc ns = Except.ok none := by
      simp [decryptOmemoBody, hhdr, hsid, hiv, hfind, hsj, hmk, hpay]
    simp [decryptOmemoMessage, hsp, hEnc, hbody]

/-- C9 witness environment and stanza: a legacy encrypted message whose
    only key element is addressed to device 9 while ours is 7. -/
def c9env : DecEnv where
  storePresent := true
  ourDeviceId := 7
  occupantRealJid := fun _ _ => none
  signalPre := fun _ _ _ => some [0]
  signalReg := fun _ _ _ => none
  aesDecrypt := fun _ _ _ => some "hi"

/-- The header of the C9 witness stanza. -/
def c9hdr : XNode :=
  XNode.elem "header" [("sid", "5")]
    [XNode.elem "key" [("rid", "9")] [XNode.text "AAAA"],
     XNode.elem "iv" [] [XNode.text "AAAA"]]

/-- The encrypted element of the C9 witness stanza. -/
def c9enc : XNode := XNode.elem "encrypted" [("xmlns", NS_OMEMO_LEGACY)] [c9hdr]

/-- The C9 witness stanza. -/
def c9stanza : XNode :=
  XNode.elem "message" [("from", "peer@s/r"), ("type", "chat")] [c9enc]

/-- C9 witness: a not-for-us stanza decrypts to `null`, via clause 2 of the
    claim theorem at a concrete stanza. -/
theorem c9_decrypt_totality_witness :
    findOurKeyElement c9hdr (NS_OMEMO_LEGACY == NS_OMEMO_V2) c9env.ourDeviceId = none ∧
    decryptOmemoMessage c9env c9stanza = none :=
  ⟨rfl, c9_decrypt_totality.2.1 c9env c9stanza c9enc NS_OMEMO_LEGACY c9hdr 5 "AAAA"
    rfl rfl rfl rfl rfl rfl⟩

-- =============================================================================
-- C1: mandatory-encryption invariant
-- =============================================================================

/-- C1 environment: OMEMO is enabled for the account, the client is
    connected, but the room is not OMEMO-capable (anonymous or without
    tracked occupants) — a state `deliverReply` reaches with
    `shouldEncryptMuc = false`. -/
def c1env : DeliverEnv where
  clientPresent := true
  omemoEnabled := true
  roomOmemoCapable := fun _ => false
  dmEncOutcome := fun _ _ => EncOutcome.nullResult
  mucEncOutcome := fun _ _ => EncOutcome.nullResult
  mediaOutcome := fun _ => MediaOutcome.uploaded "https://up.example/f.png"
  mediaResolveFails := fun _ => false
  looksLikeMuc := fun _ => true
  isMucTo := fun _ => true
  msgId := "id1"

/-- A text-only reply payload carrying the plaintext "secret". -/
def c1payload : ReplyPayload := ⟨some "secret", none, none, []⟩

/-- A reply payload carrying the plaintext "secret" as caption of a media
    URL. -/
def c1payloadMedia : ReplyPayload :=
  ⟨some "secret", none, some "https://files.example/pic.png", []⟩

/-- The inbound group message being replied to. -/
def c1msg : InMsg := ⟨true, some "room@conf.example", some "orig1", none⟩

/-- The inbound direct message being replied to (for the media path). -/
def c1msgDm : InMsg := ⟨false, none, some "orig2", none⟩

/-- C1 (code bug, evaluation): with OMEMO enabled, (a) a group reply to a
    room that `isRoomOmemoCapable` rejects is sent as a PLAIN message
    stanza whose body is exactly the plaintext, and (b) a direct reply
    carrying a media URL sends its caption — the plaintext — as a plain
    body through `sendXmppMedia` before any encryption check runs.  Both
    contradict the mandatory-encryption invariant, which allows only a
    warning stanza without the plaintext. -/
theorem c1_plaintext_leak_eval :
    c1env.omemoEnabled = true ∧
    anyStanzaHasBodyText "secret"
      (deliverReply c1env c1payload c1msg "acct" "room@conf.example/visitor") = true ∧
    anyStanzaHasBodyText "secret"
      (deliverReply c1env c1payloadMedia c1msgDm "acct" "alice@s/phone") = true :=
  ⟨rfl, rfl, rfl⟩
